import Mathlib

/-!
Verification of the net-lab IPv4 networking stack (C sources: utils.c,
ethernet.c, arp.c, ip.c, icmp.c, udp.c) against its natural-language
specification.  The C code is shallowly embedded: byte regions are
`List Nat` (each entry a byte value), packet buffers are an explicit
record with a movable window, machine-integer truncation is written
with explicit `% 2^w`, and every stateful routine is a pure function
from its inputs (including the mutable tables it touches) to its
outputs together with the list of lower-layer calls it performs.
-/

namespace NetLab

/-! ## Checksum core (utils.c: checksum16) -/

/-- One step of the carry-folding loop in `checksum16` (utils.c line 89):
add the bits above bit 15 back into the low 16 bits. -/
def foldStep (s : Nat) : Nat := s % 65536 + s / 65536

/-- Fuel-indexed carry folding.  The C loop `while (sum >> 16)` iterates
until the sum fits in 16 bits; each iteration strictly decreases the sum,
so the initial sum bounds the iteration count and serves as fuel. -/
def foldCarryAux : Nat → Nat → Nat
  | 0, s => s
  | fuel + 1, s => if s < 65536 then s else foldCarryAux fuel (foldStep s)

/-- The carry-folding loop of `checksum16` (utils.c lines 87-90). -/
def foldCarry (s : Nat) : Nat := foldCarryAux s s

/-- Mathematical (unbounded) sum of the 16-bit groups of a byte region in
the pairing `checksum16` (utils.c lines 77-85) uses on the little-endian
host: consecutive bytes are paired in order, the first byte of each pair
being the low-order byte of the 16-bit machine value, and a lone trailing
byte counted as-is (it occupies the low-order-byte position of its
would-be pair).  The source accumulates this sum in a `uint32_t` — see
`sum16_loop` for the faithful wrapping accumulator and `sum16_loop_eq`
for the bridge: the accumulator's final value is this sum modulo 2^32. -/
def sum16 : List Nat → Nat
  | [] => 0
  | [b] => b
  | b0 :: b1 :: rest => b0 + 256 * b1 + sum16 rest

/-- The accumulation loop of `checksum16` (utils.c lines 74-85) exactly as
the source runs it: a 32-bit accumulator `sum`, increased by each 16-bit
group in order and finally by a lone trailing byte, with every addition
truncated modulo 2^32 as `uint32_t` arithmetic is. -/
def sum16_loop (sum : Nat) : List Nat → Nat
  | [] => sum
  | [b] => (sum + b) % 4294967296
  | b0 :: b1 :: rest => sum16_loop ((sum + (b0 + 256 * b1)) % 4294967296) rest

/-- `checksum16` (utils.c lines 72-94): accumulate the 16-bit groups in the
32-bit `sum` variable (which wraps modulo 2^32), fold carries until the
sum fits in 16 bits, return the 16-bit complement (`(uint16_t)~sum`
equals `65535 - sum` for `sum < 65536`). -/
def checksum16 (bytes : List Nat) : Nat := 65535 - foldCarry (sum16_loop 0 bytes)

/-- Sum of 16-bit words of an even-length byte region (first byte of each
pair is the low-order byte of the word value, the pairing convention of the
host); stray trailing data contributes nothing.  Used by the specification
side model `checksum16_model`. -/
def sumWordsEven : List Nat → Nat
  | b0 :: b1 :: rest => b0 + 256 * b1 + sumWordsEven rest
  | _ => 0

/-- Modelled from the spec (§4.1): an odd trailing byte is treated as
padded with a zero byte to form a final 16-bit word — i.e. the region is
first zero-padded to even length — then all 16-bit words are summed,
carries are folded until none remain, and the 16-bit complement is
returned.  Word values use the same (host) byte-pairing convention as the
source; the spec notes the algorithm is valid under any consistent
pairing. -/
def checksum16_model (bytes : List Nat) : Nat :=
  let padded := if bytes.length % 2 = 1 then bytes ++ [0] else bytes
  65535 - foldCarry (sumWordsEven padded)

/-! ## Packet buffers (external collaborator, spec §3/§6)

Modelled from the spec: a byte region with a movable read/write window.
`headroom` holds the bytes before the window (in order), `data` is the
window, `tail` holds the bytes after the window; prepend-header /
remove-header / remove-trailing-padding move bytes across the window
boundaries without destroying them, matching pointer-and-length
bookkeeping over one underlying memory region. -/

@[ext]
structure Buf where
  headroom : List Nat
  data : List Nat
  tail : List Nat
deriving DecidableEq, Repr

/-- `buf_add_header(buf, n)`: move the window start back `n` bytes,
re-exposing the most recently hidden `n` bytes of headroom. -/
def buf_add_header (b : Buf) (n : Nat) : Buf :=
  { headroom := b.headroom.take (b.headroom.length - n),
    data := b.headroom.drop (b.headroom.length - n) ++ b.data,
    tail := b.tail }

/-- `buf_remove_header(buf, n)`: advance the window start `n` bytes;
the stripped bytes become the innermost headroom. -/
def buf_remove_header (b : Buf) (n : Nat) : Buf :=
  { headroom := b.headroom ++ b.data.take n,
    data := b.data.drop n,
    tail := b.tail }

/-- `buf_remove_padding(buf, n)`: shrink the window by `n` trailing bytes;
the trimmed bytes remain in the underlying memory after the window. -/
def buf_remove_padding (b : Buf) (n : Nat) : Buf :=
  { headroom := b.headroom,
    data := b.data.take (b.data.length - n),
    tail := b.data.drop (b.data.length - n) ++ b.tail }

/-! ## Byte-order helpers

A 16-bit field written with `swap16` on the little-endian host lies in
memory in big-endian byte order (`be16`); a 16-bit field written without
`swap16` (the checksum fields) lies in host little-endian order (`le16`).
`readBE16`/`readLE16` read a 16-bit field back from a byte region. -/

def be16 (v : Nat) : List Nat := [v / 256 % 256, v % 256]

def le16 (v : Nat) : List Nat := [v % 256, v / 256 % 256]

def readBE16 (l : List Nat) (i : Nat) : Nat := 256 * l.getD i 0 + l.getD (i + 1) 0

def readLE16 (l : List Nat) (i : Nat) : Nat := l.getD i 0 + 256 * l.getD (i + 1) 0

/-- The local interface configuration (`net_if_ip`, `net_if_mac`): a 4-byte
IPv4 address and a 6-byte MAC address. -/
structure NetIf where
  ip : List Nat
  mac : List Nat
deriving DecidableEq, Repr

/-- The 12-byte transport pseudo-header `peso_hdr_t` (utils.c lines 96-104):
source IP, destination IP, zero placeholder, protocol number, and the
segment length stored with `swap16` (big-endian). -/
def pseudo_hdr (protocol : Nat) (src_ip dst_ip : List Nat) (seg_len : Nat) : List Nat :=
  src_ip.take 4 ++ dst_ip.take 4 ++ [0, protocol % 256] ++ be16 seg_len

/-- `transport_checksum` (utils.c lines 115-154): grow the window 12 bytes
backwards, back up the bytes now at the window start, overwrite them with
the pseudo-header, run `checksum16` over the whole window, restore the
backed-up bytes, shrink the window again, and return the checksum. -/
def transport_checksum (protocol : Nat) (buf : Buf) (src_ip dst_ip : List Nat) : Nat × Buf :=
  let orig_len := buf.data.length
  let b1 := buf_add_header buf 12
  let backup := b1.data.take 12
  let b2 : Buf := { b1 with data := pseudo_hdr protocol src_ip dst_ip orig_len ++ b1.data.drop 12 }
  let ck := checksum16 b2.data
  let b3 : Buf := { b2 with data := backup ++ b2.data.drop 12 }
  (ck, buf_remove_header b3 12)

/-! ## Protocol numbers

Modelled from the spec (§6; `net.h` is not among the provided sources):
ethertypes ARP=0x0806 and IPv4=0x0800, IP protocol numbers ICMP=1 and
UDP=17. -/

def NET_PROTOCOL_IP : Nat := 0x0800

def NET_PROTOCOL_ARP : Nat := 0x0806

def NET_PROTOCOL_ICMP : Nat := 1

def NET_PROTOCOL_UDP : Nat := 17

/-! ## Expiring keyed tables (external collaborator, spec §6)

Modelled from the spec: `map.c` is not among the provided sources; the
spec specifies `set` (upsert, unique keys), `get` (value or absent) and
`delete`.  Expiry is lazy and timestamp-based; the claims under proof all
live inside a single poll cycle, so entries are modelled in their
unexpired regime: `get` returns whatever was stored. -/

def map_get {α β : Type} [DecidableEq α] : List (α × β) → α → Option β
  | [], _ => none
  | (k', v) :: r, k => if k' = k then some v else map_get r k

def map_delete {α β : Type} [DecidableEq α] : List (α × β) → α → List (α × β)
  | [], _ => []
  | (k', v) :: r, k => if k' = k then map_delete r k else (k', v) :: map_delete r k

def map_set {α β : Type} [DecidableEq α] (m : List (α × β)) (k : α) (v : β) : List (α × β) :=
  (k, v) :: map_delete m k

/-! ## Ethernet send calls

A call to `ethernet_out(buf, mac, protocol)` (ethernet.c): the payload
handed down, the destination MAC, and the ethertype.  The claims under
proof count and inspect these calls; the framing/padding ethernet.c then
performs is below the level any claim observes. -/

structure EthCall where
  payload : List Nat
  mac : List Nat
  protocol : Nat
deriving DecidableEq, Repr

/-! ## ARP (arp.c) -/

/-- The Ethernet broadcast address used by `arp_req` (arp.c line 74). -/
def ARP_BROADCAST : List Nat := [255, 255, 255, 255, 255, 255]

/-- The 28-byte ARP packet as `arp_req`/`arp_resp` (arp.c) lay it out:
hardware type 1 and protocol type 0x0800 big-endian, address lengths 6
and 4, the opcode big-endian, then sender MAC/IP (the local interface)
and target MAC/IP. -/
def arp_pkt_bytes (cfg : NetIf) (opcode : Nat) (target_mac target_ip : List Nat) : List Nat :=
  be16 1 ++ be16 0x0800 ++ [6, 4] ++ be16 opcode ++
    cfg.mac.take 6 ++ cfg.ip.take 4 ++ target_mac.take 6 ++ target_ip.take 4

/-- `arp_req` (arp.c lines 59-77): broadcast an ARP request for
`target_ip` with an all-zero target MAC. -/
def arp_req (cfg : NetIf) (target_ip : List Nat) : EthCall :=
  ⟨arp_pkt_bytes cfg 1 (List.replicate 6 0) target_ip, ARP_BROADCAST, NET_PROTOCOL_ARP⟩

/-- `arp_resp` (arp.c lines 85-111): unicast an ARP reply to
`target_mac`. -/
def arp_resp (cfg : NetIf) (target_ip target_mac : List Nat) : EthCall :=
  ⟨arp_pkt_bytes cfg 2 target_mac target_ip, target_mac, NET_PROTOCOL_ARP⟩

/-- The ARP resolver's mutable state: the `arp_table` (IP to MAC) and the
single-slot-per-IP pending-buffer table `arp_buf` (arp.c lines 25, 31). -/
structure ArpState where
  arp_table : List (List Nat × List Nat)
  arp_buf : List (List Nat × Buf)
deriving DecidableEq, Repr

/-- `arp_out` (arp.c lines 169-187): on a cache hit send at once; else if a
buffer is already pending for this IP, silently drop the new one; else
store the buffer as pending and broadcast an ARP request. -/
def arp_out (cfg : NetIf) (s : ArpState) (buf : Buf) (ip : List Nat) : ArpState × List EthCall :=
  match map_get s.arp_table ip with
  | some mac => (s, [⟨buf.data, mac, NET_PROTOCOL_IP⟩])
  | none =>
    match map_get s.arp_buf ip with
    | some _ => (s, [])
    | none => ({ s with arp_buf := map_set s.arp_buf ip buf }, [arp_req cfg ip])

/-- `arp_in` (arp.c lines 119-161): validate length and the five header
fields, upsert the cache entry for the sender, then either flush a pending
buffer to the sender (and delete the pending entry) or, failing that,
answer a request for the local IP with an ARP reply. -/
def arp_in (cfg : NetIf) (s : ArpState) (buf : Buf) (src_mac : List Nat) :
    ArpState × List EthCall :=
  if buf.data.length < 28 then (s, [])
  else if readBE16 buf.data 0 ≠ 1 then (s, [])
  else if readBE16 buf.data 2 ≠ 0x0800 then (s, [])
  else if buf.data.getD 4 0 ≠ 6 then (s, [])
  else if buf.data.getD 5 0 ≠ 4 then (s, [])
  else if readBE16 buf.data 6 ≠ 1 ∧ readBE16 buf.data 6 ≠ 2 then (s, [])
  else
    let sender_mac := (buf.data.drop 8).take 6
    let sender_ip := (buf.data.drop 14).take 4
    let s1 : ArpState := { s with arp_table := map_set s.arp_table sender_ip sender_mac }
    match map_get s1.arp_buf sender_ip with
    | some cached =>
      ({ s1 with arp_buf := map_delete s1.arp_buf sender_ip },
        [⟨cached.data, sender_mac, NET_PROTOCOL_IP⟩])
    | none =>
      if readBE16 buf.data 6 = 1 ∧ (buf.data.drop 24).take 4 = cfg.ip then
        (s1, [arp_resp cfg sender_ip sender_mac])
      else (s1, [])

/-! ## IP layer (ip.c) -/

/-- Modelled from the spec (§4.4/§6; `ip.h` is not among the provided
sources): the maximum IP payload per fragment, MTU 1500 minus the 20-byte
IP header. -/
def IP_MAX_PAYLOAD : Nat := 1480

/-- Modelled from the spec (§4.4: `moreFragments<<14`): the MoreFragments
bit of the host-order flags/fragment-offset value, bit 14. -/
def IP_MORE_FRAGMENT : Nat := 16384

/-- A call to `ip_out(buf, ip, protocol)`: the payload handed down, the
destination IP and the IP protocol number. -/
structure IpOutCall where
  payload : List Nat
  dst : List Nat
  protocol : Nat
deriving DecidableEq, Repr

/-- Zero the IP header checksum field (`ip_hdr->hdr_checksum16 = 0`,
bytes 10-11 of the header). -/
def zero_ip_ck (d : List Nat) : List Nat := d.take 10 ++ 0 :: 0 :: d.drop 12

/-- `icmp_unreachable` (icmp.c lines 64-99): build an ICMP message of
type 3 with the given code, id 0 and seq 0, whose data is the IP header of
the received datagram (the header length its first byte declares) followed
by the first 8 bytes of its payload (zero-padded to 8 if shorter), compute
`checksum16` over the whole message into the checksum field (host byte
order, as stored), and hand it to `ip_out` toward `src_ip` with protocol
ICMP.  The C code computes the payload-copy length as an unsigned
subtraction; the claims under proof keep the declared header length inside
the window, where `Nat` subtraction agrees with it. -/
def icmp_unreachable (recv_buf : Buf) (src_ip : List Nat) (code : Nat) : IpOutCall :=
  let mem := recv_buf.data
  let ip_hdr_len := mem.getD 0 0 % 16 * 4
  let copy_len := min 8 (mem.length - ip_hdr_len)
  let icmp_data := mem.take ip_hdr_len ++ (mem.drop ip_hdr_len).take copy_len ++
    List.replicate (8 - copy_len) 0
  let ck := checksum16 (3 :: code % 256 :: 0 :: 0 :: 0 :: 0 :: 0 :: 0 :: icmp_data)
  ⟨3 :: code % 256 :: le16 ck ++ (0 :: 0 :: 0 :: 0 :: icmp_data), src_ip, NET_PROTOCOL_ICMP⟩

/-- Outcome of `ip_in`, tagging which early return (if any) fired; the
mutated buffer is returned alongside, so drops record their effect on the
caller's buffer. -/
inductive IpInResult where
  | tooShort
  | badVersion
  | badHdrLen
  | badTotalLen
  | badChecksum
  | notLocal
  | delivered (protocol : Nat) (src_ip : List Nat) (payload : Buf)
  | protoUnreachable (call : IpOutCall)
deriving DecidableEq, Repr

/-- True when the result is past the five validation drops of `ip_in`
(length, version, header length, total length, header checksum). -/
def IpInResult.passedValidation : IpInResult → Bool
  | .tooShort | .badVersion | .badHdrLen | .badTotalLen | .badChecksum => false
  | _ => true

/-- `ip_in` (ip.c lines 16-83): length check, version check, header-length
check, total-length check, header-checksum verification (zero the field,
recompute over the declared header length, compare, restore on success),
destination check, padding trim, header strip, dispatch by protocol, and
ICMP protocol-unreachable when no handler is registered.
`protocols` is the set of IP protocol numbers registered with `net_in`. -/
def ip_in (cfg : NetIf) (protocols : List Nat) (buf : Buf) (src_mac : List Nat) :
    IpInResult × Buf :=
  if buf.data.length < 20 then (.tooShort, buf)
  else if buf.data.getD 0 0 / 16 ≠ 4 then (.badVersion, buf)
  else if buf.data.getD 0 0 % 16 < 5 ∨ 15 < buf.data.getD 0 0 % 16 then (.badHdrLen, buf)
  else
    let actual_hdr_len := buf.data.getD 0 0 % 16 * 4
    let ip_total_len := readBE16 buf.data 2
    if buf.data.length < ip_total_len ∨ ip_total_len < actual_hdr_len then (.badTotalLen, buf)
    else
      let orig_checksum := readLE16 buf.data 10
      let calc_checksum := checksum16 ((zero_ip_ck buf.data).take actual_hdr_len)
      if calc_checksum ≠ orig_checksum then
        (.badChecksum, { buf with data := zero_ip_ck buf.data })
      else if (buf.data.drop 16).take 4 ≠ cfg.ip then (.notLocal, buf)
      else
        let b2 := buf_remove_padding buf (buf.data.length - ip_total_len)
        let b3 := buf_remove_header b2 actual_hdr_len
        let protocol := buf.data.getD 9 0
        let src_ip := (buf.data.drop 12).take 4
        if protocol ∈ protocols then (.delivered protocol src_ip b3, b3)
        else
          let b4 := buf_add_header b3 actual_hdr_len
          (.protoUnreachable (icmp_unreachable b4 src_ip 2), b4)

/-- The 20-byte IP header as `ip_fragment_out` (ip.c lines 94-134) lays it
out: version 4 and header length 5 in the first byte (0x45), TOS 0, total
length and id big-endian, the flags/fragment field `mf<<14 | offset/8`
big-endian, TTL 64, the protocol number, the header checksum in host byte
order (stored without `swap16`), then source (local) and destination IP. -/
def ip_hdr_bytes (cfg : NetIf) (dst : List Nat) (protocol id offset : Nat) (mf : Bool)
    (total_len ck : Nat) : List Nat :=
  69 :: 0 :: be16 total_len ++ be16 id ++
    be16 ((if mf then IP_MORE_FRAGMENT else 0) + offset % 65536 / 8) ++
    64 :: protocol % 256 :: le16 ck ++ cfg.ip.take 4 ++ dst.take 4

/-- `ip_fragment_out` (ip.c lines 94-134): grow the window 20 bytes
backwards, fill in the header with checksum field zero, recompute the
checksum over the 20 header bytes into the field, and hand the datagram to
`arp_out`.  Returns the datagram buffer as handed down. -/
def ip_fragment_out (cfg : NetIf) (buf : Buf) (ip : List Nat) (protocol id offset : Nat)
    (mf : Bool) : Buf :=
  let b1 := buf_add_header buf 20
  let ck := checksum16 (ip_hdr_bytes cfg ip protocol id offset mf b1.data.length 0)
  { b1 with data := ip_hdr_bytes cfg ip protocol id offset mf b1.data.length ck ++ b1.data.drop 20 }

/-- One call to `ip_fragment_out` as issued by `ip_out` (ip.c lines
144-195): the fragment payload, destination, protocol, datagram id, byte
offset and MF flag. -/
structure IpFragCall where
  chunk : List Nat
  dst : List Nat
  protocol : Nat
  id : Nat
  offset : Nat
  mf : Bool
deriving DecidableEq, Repr

/-- The fragmentation loop of `ip_out` (ip.c lines 159-186): while more
than a full fragment remains, emit a full `IP_MAX_PAYLOAD`-sized fragment
with MF set, advancing `sent` and the 16-bit fragment-offset variable
(which wraps modulo 2^16); then emit the remainder, if any, with MF clear.
`fuel` bounds the iteration count; any `fuel > payload.length` is
sufficient since `sent` grows every iteration. -/
def ip_out_loop (fuel : Nat) (payload dst : List Nat) (protocol id : Nat)
    (sent offset : Nat) : List IpFragCall :=
  match fuel with
  | 0 => []
  | fuel + 1 =>
    if sent + IP_MAX_PAYLOAD < payload.length then
      ⟨(payload.drop sent).take IP_MAX_PAYLOAD, dst, protocol, id, offset, true⟩ ::
        ip_out_loop fuel payload dst protocol id (sent + IP_MAX_PAYLOAD)
          ((offset + IP_MAX_PAYLOAD) % 65536)
    else if 0 < payload.length - sent then
      [⟨payload.drop sent, dst, protocol, id, offset, false⟩]
    else []

/-- `ip_out` (ip.c lines 144-195): allocate one fresh 16-bit datagram id
(the counter advances by exactly one per call), and either send the whole
payload as a single fragment (offset 0, MF clear) or split it with the
fragmentation loop.  Returns the list of `ip_fragment_out` calls and the
new value of the id counter. -/
def ip_out (buf : Buf) (ip : List Nat) (protocol : Nat) (ip_id : Nat) :
    List IpFragCall × Nat :=
  if IP_MAX_PAYLOAD < buf.data.length then
    (ip_out_loop (buf.data.length + 1) buf.data ip protocol (ip_id % 65536) 0 0,
      (ip_id + 1) % 65536)
  else
    ([⟨buf.data, ip, protocol, ip_id % 65536, 0, false⟩], (ip_id + 1) % 65536)

/-! ## UDP (udp.c) -/

/-- Zero the UDP checksum field (`udp_hdr->checksum16 = 0`, bytes 6-7 of
the segment). -/
def zero_udp_ck (d : List Nat) : List Nat := d.take 6 ++ 0 :: 0 :: d.drop 8

/-- Outcome of `udp_in`, tagging which early return (if any) fired. -/
inductive UdpInResult where
  | tooShort
  | badLen
  | badChecksum (buf : Buf)
  | portUnreachable (call : IpOutCall) (buf : Buf)
  | delivered (handler : Nat) (payload : List Nat) (src_ip : List Nat) (src_port : Nat)
deriving DecidableEq, Repr

/-- The part of `udp_in` (udp.c lines 35-69) that runs after the length
checks and the trim, on the trimmed buffer: save the stored checksum, zero
the checksum field in the underlying memory (the in-window part of it is
what the checksum then covers), verify via `transport_checksum` with the
UDP pseudo-header, restore the field, then dispatch by destination port —
ICMP port-unreachable (after re-growing the window by the 20-byte IP
header size) when the port has no handler, else strip the UDP header and
deliver.  Field reads go through `buf.data ++ buf.tail`, the underlying
memory from the window start, exactly as the C header pointer does.
`udp_table` maps ports to handler identifiers. -/
def udp_in_checked (cfg : NetIf) (udp_table : List (Nat × Nat)) (buf : Buf)
    (src_ip : List Nat) : UdpInResult :=
  let mem := buf.data ++ buf.tail
  let orig_checksum := readLE16 mem 6
  let zeroed := (zero_udp_ck mem).take buf.data.length
  let calc_checksum :=
    (transport_checksum NET_PROTOCOL_UDP { buf with data := zeroed } src_ip cfg.ip).1
  if calc_checksum ≠ orig_checksum then .badChecksum buf
  else
    match map_get udp_table (readBE16 mem 2) with
    | none =>
      let b2 := buf_add_header buf 20
      .portUnreachable (icmp_unreachable b2 src_ip 3) b2
    | some handler =>
      .delivered handler (buf_remove_header buf 8).data src_ip (readBE16 mem 0)

/-- `udp_in` (udp.c lines 18-69): drop if the window is shorter than the
8-byte UDP header; drop if the window is shorter than the declared total
length; trim the window down to the declared total length; then verify the
checksum and dispatch (`udp_in_checked`). -/
def udp_in (cfg : NetIf) (udp_table : List (Nat × Nat)) (buf : Buf)
    (src_ip : List Nat) : UdpInResult :=
  if buf.data.length < 8 then .tooShort
  else if buf.data.length < readBE16 buf.data 4 then .badLen
  else udp_in_checked cfg udp_table
    (buf_remove_padding buf (buf.data.length - readBE16 buf.data 4)) src_ip

/-! ## Carry-folding lemmas -/

lemma foldStep_lt {s : Nat} (h : 65536 ≤ s) : foldStep s < s := by
  unfold foldStep
  omega

lemma foldCarryAux_of_le : ∀ f s : Nat, s ≤ f → foldCarryAux f s = foldCarryAux s s := by
  intro f
  induction f using Nat.strong_induction_on with
  | _ f ih =>
    intro s hs
    match f, s with
    | 0, 0 => rfl
    | f + 1, 0 => simp [foldCarryAux]
    | f + 1, s + 1 =>
      rw [foldCarryAux, foldCarryAux]
      by_cases h : s + 1 < 65536
      · simp [h]
      · simp only [h, if_false]
        have hstep : foldStep (s + 1) < s + 1 := foldStep_lt (by omega)
        have h1 : foldCarryAux f (foldStep (s + 1)) = foldCarryAux (foldStep (s + 1)) (foldStep (s + 1)) :=
          ih f (by omega) _ (by omega)
        have h2 : foldCarryAux s (foldStep (s + 1)) = foldCarryAux (foldStep (s + 1)) (foldStep (s + 1)) :=
          ih s (by omega) _ (by omega)
        rw [h1, h2]

lemma foldCarry_of_lt {s : Nat} (h : s < 65536) : foldCarry s = s := by
  match s with
  | 0 => rfl
  | s + 1 => simp [foldCarry, foldCarryAux, h]

lemma foldCarry_step {s : Nat} (h : 65536 ≤ s) : foldCarry s = foldCarry (foldStep s) := by
  match s with
  | s + 1 =>
    have hnot : ¬ (s + 1 < 65536) := by omega
    have hstep : foldStep (s + 1) < s + 1 := foldStep_lt h
    unfold foldCarry
    conv_lhs => rw [foldCarryAux]
    simp only [hnot, if_false]
    exact foldCarryAux_of_le s (foldStep (s + 1)) (by omega)

lemma foldCarry_lt (s : Nat) : foldCarry s < 65536 := by
  induction s using Nat.strong_induction_on with
  | _ s ih =>
    by_cases h : s < 65536
    · rw [foldCarry_of_lt h]; exact h
    · rw [foldCarry_step (by omega)]
      exact ih _ (foldStep_lt (by omega))

lemma foldCarry_mod (s : Nat) : foldCarry s % 65535 = s % 65535 := by
  induction s using Nat.strong_induction_on with
  | _ s ih =>
    by_cases h : s < 65536
    · rw [foldCarry_of_lt h]
    · rw [foldCarry_step (by omega)]
      have hstep := foldStep_lt (s := s) (by omega)
      have := ih _ hstep
      unfold foldStep at *
      omega

lemma foldCarry_pos {s : Nat} (h : 0 < s) : 0 < foldCarry s := by
  induction s using Nat.strong_induction_on with
  | _ s ih =>
    by_cases hlt : s < 65536
    · rw [foldCarry_of_lt hlt]; exact h
    · rw [foldCarry_step (by omega)]
      have hstep := foldStep_lt (s := s) (by omega)
      exact ih _ hstep (by unfold foldStep; omega)

/-- Inserting the complement of the folded sum restores the all-ones fold:
the heart of the checksum-verification identity. -/
lemma foldCarry_add_compl (S : Nat) : foldCarry (S + (65535 - foldCarry S)) = 65535 := by
  rcases Nat.eq_zero_or_pos S with h | h
  · subst h
    have h0 : foldCarry 0 = 0 := rfl
    rw [h0]
    simpa using foldCarry_of_lt (s := 65535) (by norm_num)
  · have h1 := foldCarry_lt S
    have h2 := foldCarry_mod S
    have h3 : 0 < S + (65535 - foldCarry S) := by omega
    have h4 := foldCarry_lt (S + (65535 - foldCarry S))
    have h5 := foldCarry_mod (S + (65535 - foldCarry S))
    have h6 := foldCarry_pos h3
    omega

lemma checksum16_lt (bytes : List Nat) : checksum16 bytes < 65536 := by
  unfold checksum16
  omega

lemma sum16_append_even : ∀ (pre rest : List Nat), pre.length % 2 = 0 →
    sum16 (pre ++ rest) = sum16 pre + sum16 rest := by
  intro pre
  induction pre using sum16.induct with
  | case1 => intro rest _; simp [sum16]
  | case2 b => intro rest h; simp at h
  | case3 b0 b1 t ih =>
    intro rest h
    have ht : t.length % 2 = 0 := by simp [List.length_cons] at h; omega
    show sum16 (b0 :: b1 :: (t ++ rest)) = sum16 (b0 :: b1 :: t) + sum16 rest
    rw [sum16, sum16, ih rest ht]
    ring

lemma sum16_eq_sumWordsEven_pad : ∀ bytes : List Nat,
    sum16 bytes = sumWordsEven (if bytes.length % 2 = 1 then bytes ++ [0] else bytes) := by
  intro bytes
  induction bytes using sum16.induct with
  | case1 => rfl
  | case2 b => simp [sum16, sumWordsEven]
  | case3 b0 b1 t ih =>
    have hpar : (b0 :: b1 :: t).length % 2 = t.length % 2 := by
      simp [List.length_cons]; omega
    by_cases h : t.length % 2 = 1
    · rw [if_pos (by rw [hpar]; exact h)]
      show sum16 (b0 :: b1 :: t) = sumWordsEven (b0 :: b1 :: (t ++ [0]))
      rw [sum16, sumWordsEven, ih, if_pos h]
    · rw [if_neg (by rw [hpar]; exact h)]
      rw [sum16, sumWordsEven, ih, if_neg h]

lemma sum16_loop_eq : ∀ (bytes : List Nat) (s : Nat), s < 4294967296 →
    sum16_loop s bytes = (s + sum16 bytes) % 4294967296 := by
  intro bytes
  induction bytes using sum16.induct with
  | case1 =>
    intro s hs
    show s = (s + 0) % 4294967296
    rw [Nat.add_zero, Nat.mod_eq_of_lt hs]
  | case2 b =>
    intro s hs
    rfl
  | case3 b0 b1 rest ih =>
    intro s hs
    show sum16_loop ((s + (b0 + 256 * b1)) % 4294967296) rest
      = (s + (b0 + 256 * b1 + sum16 rest)) % 4294967296
    rw [ih _ (Nat.mod_lt _ (by norm_num)), Nat.mod_add_mod]
    congr 1
    omega

/-- The wrapping 32-bit accumulator ends at the unbounded word sum reduced
modulo 2^32. -/
lemma checksum16_eq_mod (bytes : List Nat) :
    checksum16 bytes = 65535 - foldCarry (sum16 bytes % 4294967296) := by
  rw [checksum16, sum16_loop_eq bytes 0 (by norm_num), Nat.zero_add]

lemma sum16_le : ∀ bytes : List Nat, (∀ b ∈ bytes, b < 256) →
    sum16 bytes ≤ 65535 * ((bytes.length + 1) / 2) := by
  intro bytes
  induction bytes using sum16.induct with
  | case1 =>
    intro _
    simp [sum16]
  | case2 b =>
    intro hb
    have h1 := hb b (by simp)
    show b ≤ 65535 * ((([b] : List Nat).length + 1) / 2)
    simp only [List.length_singleton]
    omega
  | case3 b0 b1 rest ih =>
    intro hb
    have h0 := hb b0 (by simp)
    have h1 := hb b1 (by simp)
    have hr := ih (fun b hmem => hb b (by simp [hmem]))
    show b0 + 256 * b1 + sum16 rest ≤ 65535 * (((b0 :: b1 :: rest).length + 1) / 2)
    simp only [List.length_cons]
    omega

lemma sum16_replicate_255 : ∀ k : Nat, sum16 (List.replicate (2 * k) 255) = k * 65535 := by
  intro k
  induction k with
  | zero => rfl
  | succ k ih =>
    rw [show 2 * (k + 1) = (2 * k + 1) + 1 from by omega, List.replicate_succ,
      List.replicate_succ]
    show 255 + 256 * 255 + sum16 (List.replicate (2 * k) 255) = (k + 1) * 65535
    rw [ih]
    ring

/-- C2 (amended): `checksum16` computes the specified value — the
carry-folded, complemented sum of the region's 16-bit words with an odd
trailing byte treated as if padded with a zero byte into a final word —
whenever that word sum fits the 32-bit accumulator, which holds in
particular for every region of at most 131072 bytes; the function is
total, defined for every length, and evaluates to `0xFFFF` on the empty
region.  (For regions whose word sum reaches 2^32 the `uint32_t`
accumulator wraps and the result differs from the specified value, which
is why the claim's unrestricted length quantifier needed amending.) -/
theorem checksum16_matches_model :
    (∀ bytes : List Nat, sum16 bytes < 4294967296 →
      checksum16 bytes = checksum16_model bytes) ∧
    (∀ bytes : List Nat, (∀ b ∈ bytes, b < 256) → bytes.length ≤ 131072 →
      sum16 bytes < 4294967296) ∧
    checksum16 [] = 65535 := by
  refine ⟨?_, ?_, rfl⟩
  · intro bytes hsmall
    rw [checksum16_eq_mod, Nat.mod_eq_of_lt hsmall]
    unfold checksum16_model
    rw [sum16_eq_sumWordsEven_pad]
  · intro bytes hb hlen
    have h1 := sum16_le bytes hb
    have h2 : (bytes.length + 1) / 2 ≤ 65536 := by omega
    omega

/-- Witness for C2 (amended) at a concrete small region. -/
theorem checksum16_matches_model_witness :
    sum16 [1, 2, 250] < 4294967296 ∧ checksum16 [1, 2, 250] = checksum16_model [1, 2, 250] :=
  ⟨by decide, checksum16_matches_model.1 [1, 2, 250] (by decide)⟩

/-- On an even-length region the model skips the zero pad and computes
the complement of the carry-folded true (unbounded) word sum. -/
lemma checksum16_model_of_even (bytes : List Nat) (h : ¬ bytes.length % 2 = 1) :
    checksum16_model bytes = 65535 - foldCarry (sum16 bytes) := by
  have hp := sum16_eq_sumWordsEven_pad bytes
  rw [if_neg h] at hp
  unfold checksum16_model
  show 65535 - foldCarry (sumWordsEven (if bytes.length % 2 = 1 then bytes ++ [0] else bytes)) =
    65535 - foldCarry (sum16 bytes)
  rw [if_neg h, ← hp]

/-- Counterexample to C2 as stated: on 131076 bytes of 0xFF the word sum
is 65538·65535 = 4295032830 ≥ 2^32, the `uint32_t` accumulator wraps to
65534, and the code returns 1, while the specified carry-fold of the true
sum (≡ 0 mod 65535) yields 65535 and complement 0 — the program does not
compute the specified value at every length. -/
theorem checksum16_wrap_cex :
    checksum16 (List.replicate 131076 255) = 1 ∧
    checksum16_model (List.replicate 131076 255) = 0 := by
  have hs : sum16 (List.replicate 131076 255) = 65538 * 65535 := by
    rw [show (131076 : Nat) = 2 * 65538 from by norm_num]
    exact sum16_replicate_255 65538
  have heven : ¬ ((List.replicate 131076 (255 : Nat)).length % 2 = 1) := by
    rw [List.length_replicate]
    norm_num
  constructor
  · rw [checksum16_eq_mod, hs,
      show (65538 * 65535 : Nat) % 4294967296 = 65534 from by norm_num,
      foldCarry_of_lt (by norm_num)]
  · rw [checksum16_model_of_even _ heven, hs]
    have e1 := foldCarry_mod (65538 * 65535)
    have e2 := foldCarry_lt (65538 * 65535)
    have e3 : 0 < foldCarry (65538 * 65535) := foldCarry_pos (by norm_num)
    omega

/-- The carry-fold identity survives the 32-bit wrap of the accumulator:
folding the wrapped sum of a region plus the complement of its folded
wrapped checksum yields the all-ones value.  The inequality
`W + (65535 - foldCarry W) < 2^32` holds because near the top of the
32-bit range `foldCarry W` is pinned by `W mod 65535` to at least
`W + 65536 - 2^32`. -/
lemma foldCarry_add_compl_mod (W : Nat) (hW : W < 4294967296) :
    foldCarry ((W + (65535 - foldCarry W)) % 4294967296) = 65535 := by
  have h1 := foldCarry_lt W
  have h2 := foldCarry_mod W
  have hlt : W + (65535 - foldCarry W) < 4294967296 := by
    rcases Nat.lt_or_ge W 4294901761 with h | h
    · omega
    · have h3 := foldCarry_pos (s := W) (by omega)
      omega
  rw [Nat.mod_eq_of_lt hlt]
  exact foldCarry_add_compl W

/-- C8: embedding `checksum16` of a region (computed with its 16-bit
checksum field zeroed) into that field and recomputing `checksum16` over
the whole region yields 0 — for every byte sequence, including those long
enough that the 32-bit accumulator wraps.  The field is one of the
region's 16-bit words, i.e. it sits at an even byte offset (`pre` has
even length), and is stored in the host byte order in which `checksum16`
returns it (low byte first). -/
theorem checksum16_embed_eq_zero (pre post : List Nat) (h : pre.length % 2 = 0) :
    checksum16 (pre ++ (checksum16 (pre ++ 0 :: 0 :: post) % 256) ::
      (checksum16 (pre ++ 0 :: 0 :: post) / 256) :: post) = 0 := by
  set c := checksum16 (pre ++ 0 :: 0 :: post) with hc
  have hclt : c < 65536 := checksum16_lt _
  have hS1 : sum16 (pre ++ (c % 256) :: (c / 256) :: post)
      = sum16 (pre ++ 0 :: 0 :: post) + c := by
    rw [sum16_append_even pre _ h, sum16_append_even pre _ h]
    have e1 : sum16 ((c % 256) :: (c / 256) :: post)
        = c % 256 + 256 * (c / 256) + sum16 post := rfl
    have e2 : sum16 (0 :: 0 :: post) = 0 + 256 * 0 + sum16 post := rfl
    have hcval : c % 256 + 256 * (c / 256) = c := Nat.mod_add_div c 256
    omega
  have hcompl : c = 65535 - foldCarry (sum16 (pre ++ 0 :: 0 :: post) % 4294967296) := by
    rw [hc, checksum16_eq_mod]
  rw [checksum16_eq_mod, hS1, hcompl, ← Nat.mod_add_mod,
    foldCarry_add_compl_mod (sum16 (pre ++ 0 :: 0 :: post) % 4294967296)
      (Nat.mod_lt _ (by norm_num))]

/-- Witness for C8 at a concrete region: 4-byte prefix, 3-byte suffix. -/
theorem checksum16_embed_eq_zero_witness :
    ([17, 34, 51, 68] : List Nat).length % 2 = 0 ∧
    checksum16 ([17, 34, 51, 68] ++ (checksum16 ([17, 34, 51, 68] ++ 0 :: 0 :: [5, 6, 7]) % 256) ::
      (checksum16 ([17, 34, 51, 68] ++ 0 :: 0 :: [5, 6, 7]) / 256) :: [5, 6, 7]) = 0 :=
  ⟨by decide, checksum16_embed_eq_zero [17, 34, 51, 68] [5, 6, 7] (by decide)⟩

lemma take_append_len {α : Type} (l1 l2 : List α) {n : Nat} (h : l1.length = n) :
    (l1 ++ l2).take n = l1 := by
  subst h; exact List.take_left l1 l2

lemma drop_append_len {α : Type} (l1 l2 : List α) {n : Nat} (h : l1.length = n) :
    (l1 ++ l2).drop n = l2 := by
  subst h; exact List.drop_left l1 l2

/-- C7: for every protocol, segment buffer (with the 12 bytes of physical
space the pseudo-header occupies available before the window) and 4-byte
source/destination IPs, `transport_checksum` returns `checksum16` of the
12-byte pseudo-header concatenated with the segment, and on return the
caller's buffer — window offset, length, contents, and the bytes that were
physically overwritten to hold the pseudo-header — is byte-for-byte the
state it had before the call. -/
theorem transport_checksum_frame (protocol : Nat) (buf : Buf) (src dst : List Nat)
    (hh : 12 ≤ buf.headroom.length) (hs : src.length = 4) (hd : dst.length = 4) :
    (transport_checksum protocol buf src dst).2 = buf ∧
    (transport_checksum protocol buf src dst).1 =
      checksum16 (src ++ dst ++ [0, protocol % 256] ++ be16 buf.data.length ++ buf.data) := by
  have hdroplen : (buf.headroom.drop (buf.headroom.length - 12)).length = 12 := by
    rw [List.length_drop]; omega
  have hpseudolen : (pseudo_hdr protocol src dst buf.data.length).length = 12 := by
    unfold pseudo_hdr be16
    rw [List.length_append, List.length_append, List.length_append,
      List.length_take, List.length_take, hs, hd]
    simp
  have h1 : ((buf.headroom.drop (buf.headroom.length - 12)) ++ buf.data).take 12
      = buf.headroom.drop (buf.headroom.length - 12) :=
    take_append_len _ _ hdroplen
  have h2 : ((buf.headroom.drop (buf.headroom.length - 12)) ++ buf.data).drop 12
      = buf.data :=
    drop_append_len _ _ hdroplen
  have h3 : (pseudo_hdr protocol src dst buf.data.length ++ buf.data).drop 12 = buf.data :=
    drop_append_len _ _ hpseudolen
  constructor
  · simp only [transport_checksum, buf_add_header, buf_remove_header, h1, h2, h3,
      List.take_append_drop]
  · have hsrc : src.take 4 = src := List.take_of_length_le (le_of_eq hs)
    have hdst : dst.take 4 = dst := List.take_of_length_le (le_of_eq hd)
    simp only [transport_checksum, buf_add_header, h1, h2, h3]
    simp [pseudo_hdr, hsrc, hdst, List.append_assoc]

/-- Witness for C7 at a concrete buffer with 12 bytes of headroom. -/
theorem transport_checksum_frame_witness :
    (12 ≤ (Buf.mk [9, 9, 9, 9, 9, 9, 9, 9, 9, 9, 9, 9] [1, 2, 3] [7]).headroom.length ∧
      ([10, 0, 0, 2] : List Nat).length = 4 ∧ ([10, 0, 0, 1] : List Nat).length = 4) ∧
    ((transport_checksum 17 (Buf.mk [9, 9, 9, 9, 9, 9, 9, 9, 9, 9, 9, 9] [1, 2, 3] [7])
        [10, 0, 0, 2] [10, 0, 0, 1]).2 =
      Buf.mk [9, 9, 9, 9, 9, 9, 9, 9, 9, 9, 9, 9] [1, 2, 3] [7] ∧
      (transport_checksum 17 (Buf.mk [9, 9, 9, 9, 9, 9, 9, 9, 9, 9, 9, 9] [1, 2, 3] [7])
        [10, 0, 0, 2] [10, 0, 0, 1]).1 =
      checksum16 ([10, 0, 0, 2] ++ [10, 0, 0, 1] ++ [0, 17 % 256] ++
        be16 (Buf.mk [9, 9, 9, 9, 9, 9, 9, 9, 9, 9, 9, 9] [1, 2, 3] [7]).data.length ++
        (Buf.mk [9, 9, 9, 9, 9, 9, 9, 9, 9, 9, 9, 9] [1, 2, 3] [7]).data)) :=
  ⟨⟨by decide, by decide, by decide⟩,
    transport_checksum_frame 17 _ [10, 0, 0, 2] [10, 0, 0, 1] (by decide) (by decide) (by decide)⟩

lemma map_get_set_same {α β : Type} [DecidableEq α] (m : List (α × β)) (k : α) (v : β) :
    map_get (map_set m k v) k = some v := by
  simp [map_set, map_get]

lemma map_get_delete_same {α β : Type} [DecidableEq α] (m : List (α × β)) (k : α) :
    map_get (map_delete m k) k = none := by
  induction m with
  | nil => rfl
  | cons p r ih =>
    obtain ⟨k', v⟩ := p
    by_cases h : k' = k
    · simp [map_delete, h, ih]
    · simp [map_delete, h, map_get, ih]

/-- C3: with no cache entry and no pending entry for `ip`, two consecutive
`arp_out` calls toward `ip` transmit exactly one frame — the broadcast ARP
request — and store exactly one pending buffer, the first one; the second
call transmits nothing, leaves the stored buffer in place, and does not
queue the new buffer (its state is unchanged). -/
theorem arp_out_single_request (cfg : NetIf) (s : ArpState) (buf1 buf2 : Buf) (ip : List Nat)
    (ht : map_get s.arp_table ip = none) (hb : map_get s.arp_buf ip = none) :
    (arp_out cfg s buf1 ip).2 =
      [⟨arp_pkt_bytes cfg 1 (List.replicate 6 0) ip, ARP_BROADCAST, NET_PROTOCOL_ARP⟩] ∧
    map_get (arp_out cfg s buf1 ip).1.arp_buf ip = some buf1 ∧
    (arp_out cfg s buf1 ip).1.arp_table = s.arp_table ∧
    (arp_out cfg (arp_out cfg s buf1 ip).1 buf2 ip).2 = [] ∧
    (arp_out cfg (arp_out cfg s buf1 ip).1 buf2 ip).1 = (arp_out cfg s buf1 ip).1 := by
  have h1 : arp_out cfg s buf1 ip =
      ({ s with arp_buf := map_set s.arp_buf ip buf1 }, [arp_req cfg ip]) := by
    simp [arp_out, ht, hb]
  refine ⟨by rw [h1]; rfl, ?_, by rw [h1], ?_, ?_⟩
  · rw [h1]
    exact map_get_set_same _ _ _
  · rw [h1]
    simp [arp_out, ht, map_get_set_same]
  · rw [h1]
    simp [arp_out, ht, map_get_set_same]

/-- Witness for C3 at a concrete empty resolver state. -/
theorem arp_out_single_request_witness :
    (map_get (ArpState.mk [] []).arp_table [10, 0, 0, 9] = none ∧
      map_get (ArpState.mk [] []).arp_buf [10, 0, 0, 9] = none) ∧
    ((arp_out (NetIf.mk [10, 0, 0, 1] [1, 2, 3, 4, 5, 6]) (ArpState.mk [] [])
        (Buf.mk [] [80, 81] []) [10, 0, 0, 9]).2 =
      [⟨arp_pkt_bytes (NetIf.mk [10, 0, 0, 1] [1, 2, 3, 4, 5, 6]) 1 (List.replicate 6 0)
          [10, 0, 0, 9], ARP_BROADCAST, NET_PROTOCOL_ARP⟩] ∧
      map_get (arp_out (NetIf.mk [10, 0, 0, 1] [1, 2, 3, 4, 5, 6]) (ArpState.mk [] [])
        (Buf.mk [] [80, 81] []) [10, 0, 0, 9]).1.arp_buf [10, 0, 0, 9] =
        some (Buf.mk [] [80, 81] []) ∧
      (arp_out (NetIf.mk [10, 0, 0, 1] [1, 2, 3, 4, 5, 6]) (ArpState.mk [] [])
        (Buf.mk [] [80, 81] []) [10, 0, 0, 9]).1.arp_table = (ArpState.mk [] []).arp_table ∧
      (arp_out (NetIf.mk [10, 0, 0, 1] [1, 2, 3, 4, 5, 6])
        (arp_out (NetIf.mk [10, 0, 0, 1] [1, 2, 3, 4, 5, 6]) (ArpState.mk [] [])
          (Buf.mk [] [80, 81] []) [10, 0, 0, 9]).1 (Buf.mk [] [90] []) [10, 0, 0, 9]).2 = [] ∧
      (arp_out (NetIf.mk [10, 0, 0, 1] [1, 2, 3, 4, 5, 6])
        (arp_out (NetIf.mk [10, 0, 0, 1] [1, 2, 3, 4, 5, 6]) (ArpState.mk [] [])
          (Buf.mk [] [80, 81] []) [10, 0, 0, 9]).1 (Buf.mk [] [90] []) [10, 0, 0, 9]).1 =
      (arp_out (NetIf.mk [10, 0, 0, 1] [1, 2, 3, 4, 5, 6]) (ArpState.mk [] [])
        (Buf.mk [] [80, 81] []) [10, 0, 0, 9]).1) :=
  ⟨⟨by decide, by decide⟩,
    arp_out_single_request (NetIf.mk [10, 0, 0, 1] [1, 2, 3, 4, 5, 6]) (ArpState.mk [] [])
      (Buf.mk [] [80, 81] []) (Buf.mk [] [90] []) [10, 0, 0, 9] (by decide) (by decide)⟩

/-- C4: a valid inbound ARP packet (length at least 28, hardware type 1,
protocol type 0x0800, address lengths 6/4, opcode 1 or 2) whose sender IP
has a pending buffer causes exactly one Ethernet transmission — the held
pending buffer, to the packet's sender MAC, with protocol IP — the pending
entry is deleted, the cache entry for the sender is upserted, and no ARP
reply is sent even when the packet is a request targeting the local IP
(no hypothesis below excludes that case). -/
theorem arp_in_pending_flush (cfg : NetIf) (s : ArpState) (buf : Buf) (src_mac : List Nat)
    (pb : Buf)
    (hlen : ¬ buf.data.length < 28)
    (hhw : readBE16 buf.data 0 = 1) (hpro : readBE16 buf.data 2 = 0x0800)
    (hhl : buf.data.getD 4 0 = 6) (hpl : buf.data.getD 5 0 = 4)
    (hop : readBE16 buf.data 6 = 1 ∨ readBE16 buf.data 6 = 2)
    (hpend : map_get s.arp_buf ((buf.data.drop 14).take 4) = some pb) :
    (arp_in cfg s buf src_mac).2 =
      [⟨pb.data, (buf.data.drop 8).take 6, NET_PROTOCOL_IP⟩] ∧
    map_get (arp_in cfg s buf src_mac).1.arp_buf ((buf.data.drop 14).take 4) = none ∧
    map_get (arp_in cfg s buf src_mac).1.arp_table ((buf.data.drop 14).take 4) =
      some ((buf.data.drop 8).take 6) := by
  have hopc : ¬ (readBE16 buf.data 6 ≠ 1 ∧ readBE16 buf.data 6 ≠ 2) := by tauto
  simp only [arp_in, if_neg hlen, hhw, hpro, hhl, hpl, if_neg hopc]
  norm_num
  simp [hpend, map_get_delete_same, map_get_set_same]

/-- Witness for C4: an ARP request from 10.0.0.2 (which also targets the
local IP 10.0.0.1) while a pending buffer for 10.0.0.2 is held. -/
theorem arp_in_pending_flush_witness :
    (¬ (Buf.mk [] ([0, 1, 8, 0, 6, 4, 0, 1] ++ [170, 170, 170, 170, 170, 170] ++
        [10, 0, 0, 2] ++ [0, 0, 0, 0, 0, 0] ++ [10, 0, 0, 1]) []).data.length < 28) ∧
    ((arp_in (NetIf.mk [10, 0, 0, 1] [1, 2, 3, 4, 5, 6])
        (ArpState.mk [] [([10, 0, 0, 2], Buf.mk [] [55, 66] [])])
        (Buf.mk [] ([0, 1, 8, 0, 6, 4, 0, 1] ++ [170, 170, 170, 170, 170, 170] ++
          [10, 0, 0, 2] ++ [0, 0, 0, 0, 0, 0] ++ [10, 0, 0, 1]) []) [170, 170, 170, 170, 170, 170]).2 =
      [⟨(Buf.mk [] [55, 66] []).data, [170, 170, 170, 170, 170, 170], NET_PROTOCOL_IP⟩] ∧
      map_get (arp_in (NetIf.mk [10, 0, 0, 1] [1, 2, 3, 4, 5, 6])
        (ArpState.mk [] [([10, 0, 0, 2], Buf.mk [] [55, 66] [])])
        (Buf.mk [] ([0, 1, 8, 0, 6, 4, 0, 1] ++ [170, 170, 170, 170, 170, 170] ++
          [10, 0, 0, 2] ++ [0, 0, 0, 0, 0, 0] ++ [10, 0, 0, 1]) [])
        [170, 170, 170, 170, 170, 170]).1.arp_buf [10, 0, 0, 2] = none ∧
      map_get (arp_in (NetIf.mk [10, 0, 0, 1] [1, 2, 3, 4, 5, 6])
        (ArpState.mk [] [([10, 0, 0, 2], Buf.mk [] [55, 66] [])])
        (Buf.mk [] ([0, 1, 8, 0, 6, 4, 0, 1] ++ [170, 170, 170, 170, 170, 170] ++
          [10, 0, 0, 2] ++ [0, 0, 0, 0, 0, 0] ++ [10, 0, 0, 1]) [])
        [170, 170, 170, 170, 170, 170]).1.arp_table [10, 0, 0, 2] =
        some [170, 170, 170, 170, 170, 170]) := by
  refine ⟨by decide, ?_⟩
  have h := arp_in_pending_flush (NetIf.mk [10, 0, 0, 1] [1, 2, 3, 4, 5, 6])
    (ArpState.mk [] [([10, 0, 0, 2], Buf.mk [] [55, 66] [])])
    (Buf.mk [] ([0, 1, 8, 0, 6, 4, 0, 1] ++ [170, 170, 170, 170, 170, 170] ++
      [10, 0, 0, 2] ++ [0, 0, 0, 0, 0, 0] ++ [10, 0, 0, 1]) []) [170, 170, 170, 170, 170, 170]
    (Buf.mk [] [55, 66] []) (by decide) (by decide) (by decide) (by decide) (by decide)
    (Or.inl (by decide)) (by decide)
  exact h

lemma length_take_of_le {α : Type} {l : List α} {n : Nat} (h : n ≤ l.length) :
    (l.take n).length = n := by
  rw [List.length_take]; omega

lemma list_decomp_12 (d : List Nat) (h : 12 ≤ d.length) :
    d = d.take 10 ++ d.getD 10 0 :: d.getD 11 0 :: d.drop 12 := by
  have h10 : 10 < d.length := by omega
  have h11 : 11 < d.length := by omega
  conv_lhs => rw [← List.take_append_drop 10 d]
  congr 1
  rw [List.drop_eq_getElem_cons h10, List.drop_eq_getElem_cons h11,
    List.getD_eq_getElem d 0 h10, List.getD_eq_getElem d 0 h11]

lemma zero_ip_ck_getD10 (d : List Nat) (h : 10 ≤ d.length) :
    (zero_ip_ck d).getD 10 0 = 0 := by
  unfold zero_ip_ck
  have hl : (d.take 10).length = 10 := length_take_of_le h
  rw [List.getD_append_right _ _ _ _ (by omega)]
  simp [hl]

lemma zero_ip_ck_getD11 (d : List Nat) (h : 10 ≤ d.length) :
    (zero_ip_ck d).getD 11 0 = 0 := by
  unfold zero_ip_ck
  have hl : (d.take 10).length = 10 := length_take_of_le h
  rw [List.getD_append_right _ _ _ _ (by omega)]
  simp [hl]

lemma zero_ip_ck_eq_self_iff (d : List Nat) (h : 12 ≤ d.length) :
    zero_ip_ck d = d ↔ d.getD 10 0 = 0 ∧ d.getD 11 0 = 0 := by
  constructor
  · intro he
    refine ⟨?_, ?_⟩
    · rw [← he]; exact zero_ip_ck_getD10 d (by omega)
    · rw [← he]; exact zero_ip_ck_getD11 d (by omega)
  · rintro ⟨h10, h11⟩
    rw [zero_ip_ck]
    conv_rhs => rw [list_decomp_12 d h]
    rw [h10, h11]

/-- C9 (amended): when the header checksum verification of `ip_in` fails
on a datagram that passed the earlier length/version/header checks, the
function returns with the checksum field of the caller's buffer holding
zero — the original value is not rewritten (it is restored only on
success) — so the drop leaves the buffer in a modified state exactly when
the original checksum field was nonzero (with an already-zero field the
overwrite is invisible, which is why the claim's unconditional "buffer
modified" needed amending). -/
theorem ip_in_checksum_drop_mutation (cfg : NetIf) (protocols : List Nat) (buf : Buf)
    (src_mac : List Nat)
    (h20 : ¬ buf.data.length < 20)
    (hver : buf.data.getD 0 0 / 16 = 4)
    (hhl : ¬ (buf.data.getD 0 0 % 16 < 5 ∨ 15 < buf.data.getD 0 0 % 16))
    (htl : ¬ (buf.data.length < readBE16 buf.data 2 ∨
      readBE16 buf.data 2 < buf.data.getD 0 0 % 16 * 4))
    (hck : checksum16 ((zero_ip_ck buf.data).take (buf.data.getD 0 0 % 16 * 4)) ≠
      readLE16 buf.data 10) :
    (ip_in cfg protocols buf src_mac).1 = .badChecksum ∧
    (ip_in cfg protocols buf src_mac).2 = { buf with data := zero_ip_ck buf.data } ∧
    (ip_in cfg protocols buf src_mac).2.data.getD 10 0 = 0 ∧
    (ip_in cfg protocols buf src_mac).2.data.getD 11 0 = 0 ∧
    ((ip_in cfg protocols buf src_mac).2 = buf ↔
      buf.data.getD 10 0 = 0 ∧ buf.data.getD 11 0 = 0) := by
  have hv : ¬ (buf.data.getD 0 0 / 16 ≠ 4) := fun hne => hne hver
  have hres : ip_in cfg protocols buf src_mac =
      (.badChecksum, { buf with data := zero_ip_ck buf.data }) := by
    simp only [ip_in, if_neg h20, if_neg hv, if_neg hhl, if_neg htl, if_pos hck]
  rw [hres]
  have hd : 12 ≤ buf.data.length := by omega
  refine ⟨rfl, rfl, zero_ip_ck_getD10 _ (by omega), zero_ip_ck_getD11 _ (by omega), ?_⟩
  constructor
  · intro he
    have : zero_ip_ck buf.data = buf.data := congrArg Buf.data he
    exact (zero_ip_ck_eq_self_iff buf.data hd).mp this
  · intro hz
    have : zero_ip_ck buf.data = buf.data := (zero_ip_ck_eq_self_iff buf.data hd).mpr hz
    rw [this]

/-- Witness for C9 (amended) at a concrete datagram whose stored checksum
(0x0101) does not match the recomputed one. -/
theorem ip_in_checksum_drop_mutation_witness :
    (¬ (Buf.mk [] [69, 0, 0, 20, 0, 0, 0, 0, 64, 17, 1, 1, 10, 0, 0, 2, 10, 0, 0, 1] []).data.length < 20 ∧
      (Buf.mk [] [69, 0, 0, 20, 0, 0, 0, 0, 64, 17, 1, 1, 10, 0, 0, 2, 10, 0, 0, 1] []).data.getD 0 0 / 16 = 4) ∧
    ((ip_in (NetIf.mk [10, 0, 0, 1] [1, 2, 3, 4, 5, 6]) []
        (Buf.mk [] [69, 0, 0, 20, 0, 0, 0, 0, 64, 17, 1, 1, 10, 0, 0, 2, 10, 0, 0, 1] []) []).1 =
      .badChecksum ∧
      (ip_in (NetIf.mk [10, 0, 0, 1] [1, 2, 3, 4, 5, 6]) []
        (Buf.mk [] [69, 0, 0, 20, 0, 0, 0, 0, 64, 17, 1, 1, 10, 0, 0, 2, 10, 0, 0, 1] []) []).2 =
      { Buf.mk [] [69, 0, 0, 20, 0, 0, 0, 0, 64, 17, 1, 1, 10, 0, 0, 2, 10, 0, 0, 1] [] with
          data := zero_ip_ck [69, 0, 0, 20, 0, 0, 0, 0, 64, 17, 1, 1, 10, 0, 0, 2, 10, 0, 0, 1] } ∧
      (ip_in (NetIf.mk [10, 0, 0, 1] [1, 2, 3, 4, 5, 6]) []
        (Buf.mk [] [69, 0, 0, 20, 0, 0, 0, 0, 64, 17, 1, 1, 10, 0, 0, 2, 10, 0, 0, 1] []) []).2.data.getD 10 0 = 0 ∧
      (ip_in (NetIf.mk [10, 0, 0, 1] [1, 2, 3, 4, 5, 6]) []
        (Buf.mk [] [69, 0, 0, 20, 0, 0, 0, 0, 64, 17, 1, 1, 10, 0, 0, 2, 10, 0, 0, 1] []) []).2.data.getD 11 0 = 0 ∧
      ((ip_in (NetIf.mk [10, 0, 0, 1] [1, 2, 3, 4, 5, 6]) []
        (Buf.mk [] [69, 0, 0, 20, 0, 0, 0, 0, 64, 17, 1, 1, 10, 0, 0, 2, 10, 0, 0, 1] []) []).2 =
        Buf.mk [] [69, 0, 0, 20, 0, 0, 0, 0, 64, 17, 1, 1, 10, 0, 0, 2, 10, 0, 0, 1] [] ↔
        (Buf.mk [] [69, 0, 0, 20, 0, 0, 0, 0, 64, 17, 1, 1, 10, 0, 0, 2, 10, 0, 0, 1] []).data.getD 10 0 = 0 ∧
        (Buf.mk [] [69, 0, 0, 20, 0, 0, 0, 0, 64, 17, 1, 1, 10, 0, 0, 2, 10, 0, 0, 1] []).data.getD 11 0 = 0)) :=
  ⟨⟨by decide, by decide⟩,
    ip_in_checksum_drop_mutation (NetIf.mk [10, 0, 0, 1] [1, 2, 3, 4, 5, 6]) []
      (Buf.mk [] [69, 0, 0, 20, 0, 0, 0, 0, 64, 17, 1, 1, 10, 0, 0, 2, 10, 0, 0, 1] []) []
      (by decide) (by decide) (by decide) (by decide) (by decide)⟩

/-- Counterexample to C9 as stated: a datagram whose stored checksum field
is already zero and whose verification fails.  `ip_in` drops it at the
checksum check, yet the returned buffer is byte-for-byte the caller's
original buffer — not modified, contradicting the claim that every
checksum-mismatch drop leaves the buffer modified. -/
theorem ip_in_checksum_drop_unmodified_cex :
    (ip_in (NetIf.mk [10, 0, 0, 1] [1, 2, 3, 4, 5, 6]) []
      (Buf.mk [] [69, 0, 0, 20, 0, 0, 0, 0, 64, 17, 0, 0, 10, 0, 0, 2, 10, 0, 0, 1] []) []).1 =
      .badChecksum ∧
    (ip_in (NetIf.mk [10, 0, 0, 1] [1, 2, 3, 4, 5, 6]) []
      (Buf.mk [] [69, 0, 0, 20, 0, 0, 0, 0, 64, 17, 0, 0, 10, 0, 0, 2, 10, 0, 0, 1] []) []).2 =
      Buf.mk [] [69, 0, 0, 20, 0, 0, 0, 0, 64, 17, 0, 0, 10, 0, 0, 2, 10, 0, 0, 1] [] := by
  decide

lemma length_eq_four {α : Type} {l : List α} (h : l.length = 4) :
    ∃ a b c d, l = [a, b, c, d] := by
  rcases l with _ | ⟨a, l⟩
  · simp at h
  rcases l with _ | ⟨b, l⟩
  · simp at h
  rcases l with _ | ⟨c, l⟩
  · simp at h
  rcases l with _ | ⟨d, l⟩
  · simp at h
  rcases l with _ | ⟨e, l⟩
  · exact ⟨a, b, c, d, rfl⟩
  · simp [List.length_cons] at h

/-- C5 (amended): a datagram built by `ip_fragment_out` — provided its
total length (payload plus the 20-byte header) fits the 16-bit total-length
field, i.e. payload length ≤ 65515 — passes `ip_in`'s validation of
version, header length, total length and header checksum when presented
unmodified.  (For longer payloads the stored total length wraps modulo
2^16 and `ip_in` rejects the datagram, which is why the claim's
unrestricted payload quantifier needed amending.) -/
theorem ip_fragment_out_passes_ip_in (cfg : NetIf) (buf : Buf) (dst : List Nat)
    (protocol id offset : Nat) (mf : Bool) (protocols src_mac : List Nat)
    (hip : cfg.ip.length = 4) (hdst : dst.length = 4)
    (hhr : 20 ≤ buf.headroom.length)
    (hsz : buf.data.length + 20 ≤ 65535) :
    ((ip_in cfg protocols (ip_fragment_out cfg buf dst protocol id offset mf) src_mac).1).passedValidation
      = true := by
  obtain ⟨s1, s2, s3, s4, hip4⟩ := length_eq_four hip
  obtain ⟨e1, e2, e3, e4, hdst4⟩ := length_eq_four hdst
  have hhid : (buf.headroom.drop (buf.headroom.length - 20)).length = 20 := by
    rw [List.length_drop]; omega
  have hb1d : (buf_add_header buf 20).data =
      buf.headroom.drop (buf.headroom.length - 20) ++ buf.data := rfl
  have hlenb1 : (buf_add_header buf 20).data.length = 20 + buf.data.length := by
    rw [hb1d, List.length_append, hhid]
  have hdropb1 : (buf_add_header buf 20).data.drop 20 = buf.data := by
    rw [hb1d]; exact drop_append_len _ _ hhid
  have hhdr : ∀ c : Nat, ip_hdr_bytes cfg dst protocol id offset mf (20 + buf.data.length) c =
      69 :: 0 :: be16 (20 + buf.data.length) ++ be16 id ++
        be16 ((if mf then IP_MORE_FRAGMENT else 0) + offset % 65536 / 8) ++
        64 :: protocol % 256 :: le16 c ++ ([s1, s2, s3, s4] ++ [e1, e2, e3, e4]) := by
    intro c
    rw [ip_hdr_bytes, hip4, hdst4]
    rfl
  have hfragd : (ip_fragment_out cfg buf dst protocol id offset mf).data =
      ip_hdr_bytes cfg dst protocol id offset mf (20 + buf.data.length)
        (checksum16 (ip_hdr_bytes cfg dst protocol id offset mf (20 + buf.data.length) 0))
        ++ buf.data := by
    show ip_hdr_bytes cfg dst protocol id offset mf (buf_add_header buf 20).data.length
        (checksum16 (ip_hdr_bytes cfg dst protocol id offset mf
          (buf_add_header buf 20).data.length 0))
        ++ (buf_add_header buf 20).data.drop 20 = _
    rw [hlenb1, hdropb1]
  set ckv := checksum16 (ip_hdr_bytes cfg dst protocol id offset mf (20 + buf.data.length) 0)
    with hckv
  have hD : (ip_fragment_out cfg buf dst protocol id offset mf).data =
      69 :: 0 :: be16 (20 + buf.data.length) ++ be16 id ++
        be16 ((if mf then IP_MORE_FRAGMENT else 0) + offset % 65536 / 8) ++
        64 :: protocol % 256 :: le16 ckv ++ ([s1, s2, s3, s4] ++ [e1, e2, e3, e4])
        ++ buf.data := by
    rw [hfragd, hhdr]
  have hDlen : (ip_fragment_out cfg buf dst protocol id offset mf).data.length
      = 20 + buf.data.length := by
    rw [hD]
    simp [be16, le16]
    omega
  have hget0 : (ip_fragment_out cfg buf dst protocol id offset mf).data.getD 0 0 = 69 := by
    rw [hD]; rfl
  have htotval : readBE16 (ip_fragment_out cfg buf dst protocol id offset mf).data 2
      = 20 + buf.data.length := by
    rw [hD]
    show 256 * ((20 + buf.data.length) / 256 % 256) + (20 + buf.data.length) % 256 = _
    omega
  have hckfield : readLE16 (ip_fragment_out cfg buf dst protocol id offset mf).data 10
      = ckv := by
    rw [hD]
    show ckv % 256 + 256 * (ckv / 256 % 256) = ckv
    have := checksum16_lt (ip_hdr_bytes cfg dst protocol id offset mf (20 + buf.data.length) 0)
    rw [← hckv] at this
    omega
  have hcalc : (zero_ip_ck (ip_fragment_out cfg buf dst protocol id offset mf).data).take 20
      = ip_hdr_bytes cfg dst protocol id offset mf (20 + buf.data.length) 0 := by
    rw [hD, hhdr]
    rfl
  have hlen20 : ¬ (ip_fragment_out cfg buf dst protocol id offset mf).data.length < 20 := by
    omega
  have hv : ¬ ((ip_fragment_out cfg buf dst protocol id offset mf).data.getD 0 0 / 16 ≠ 4) := by
    rw [hget0]; norm_num
  have hhl5 : ¬ ((ip_fragment_out cfg buf dst protocol id offset mf).data.getD 0 0 % 16 < 5 ∨
      15 < (ip_fragment_out cfg buf dst protocol id offset mf).data.getD 0 0 % 16) := by
    rw [hget0]; norm_num
  have htotal : ¬ ((ip_fragment_out cfg buf dst protocol id offset mf).data.length <
      readBE16 (ip_fragment_out cfg buf dst protocol id offset mf).data 2 ∨
      readBE16 (ip_fragment_out cfg buf dst protocol id offset mf).data 2 <
      (ip_fragment_out cfg buf dst protocol id offset mf).data.getD 0 0 % 16 * 4) := by
    rw [htotval, hget0, hDlen]; norm_num
  have hcknot : ¬ (checksum16 ((zero_ip_ck (ip_fragment_out cfg buf dst protocol id offset mf).data).take
      ((ip_fragment_out cfg buf dst protocol id offset mf).data.getD 0 0 % 16 * 4)) ≠
      readLE16 (ip_fragment_out cfg buf dst protocol id offset mf).data 10) := by
    rw [hget0, hckfield]
    norm_num
    rw [hcalc]
  simp only [ip_in, if_neg hlen20, if_neg hv, if_neg hhl5, if_neg htotal, if_neg hcknot]
  split
  · rfl
  · split <;> rfl

/-- Witness for C5 (amended) at a concrete 3-byte payload. -/
theorem ip_fragment_out_passes_ip_in_witness :
    ((NetIf.mk [10, 0, 0, 1] [1, 2, 3, 4, 5, 6]).ip.length = 4 ∧
      ([10, 0, 0, 2] : List Nat).length = 4 ∧
      20 ≤ (Buf.mk (List.replicate 24 0) [1, 2, 3] []).headroom.length ∧
      (Buf.mk (List.replicate 24 0) [1, 2, 3] []).data.length + 20 ≤ 65535) ∧
    ((ip_in (NetIf.mk [10, 0, 0, 1] [1, 2, 3, 4, 5, 6]) [1, 17]
      (ip_fragment_out (NetIf.mk [10, 0, 0, 1] [1, 2, 3, 4, 5, 6])
        (Buf.mk (List.replicate 24 0) [1, 2, 3] []) [10, 0, 0, 2] 17 7 0 false) []).1).passedValidation
      = true :=
  ⟨⟨by decide, by decide, by decide, by decide⟩,
    ip_fragment_out_passes_ip_in (NetIf.mk [10, 0, 0, 1] [1, 2, 3, 4, 5, 6])
      (Buf.mk (List.replicate 24 0) [1, 2, 3] []) [10, 0, 0, 2] 17 7 0 false [1, 17] []
      (by decide) (by decide) (by decide) (by decide)⟩

/-- Counterexample to C5 as stated: with a 65516-byte payload the total
length 65536 wraps to 0 in the 16-bit total-length field, and `ip_in`
rejects the datagram at the total-length check (0 < header length 20), so
the datagram does not pass validation. -/
theorem ip_fragment_out_wrap_cex :
    ((ip_in (NetIf.mk [10, 0, 0, 1] [1, 2, 3, 4, 5, 6]) [1, 17]
      (ip_fragment_out (NetIf.mk [10, 0, 0, 1] [1, 2, 3, 4, 5, 6])
        (Buf.mk (List.replicate 20 0) (List.replicate 65516 0) []) [10, 0, 0, 2] 17 0 0 false)
      []).1).passedValidation = false := by
  have hhid : (((List.replicate 20 0 : List Nat)).drop
      ((List.replicate 20 0 : List Nat).length - 20)).length = 20 := by simp
  have hlenb1 : (buf_add_header (Buf.mk (List.replicate 20 0) (List.replicate 65516 0) []) 20).data.length
      = 65536 := by
    show ((List.replicate 20 0 : List Nat).drop ((List.replicate 20 0 : List Nat).length - 20)
      ++ List.replicate 65516 0).length = 65536
    rw [List.length_append, hhid, List.length_replicate]
  have hdropb1 : (buf_add_header (Buf.mk (List.replicate 20 0) (List.replicate 65516 0) []) 20).data.drop 20
      = List.replicate 65516 0 := by
    show ((List.replicate 20 0 : List Nat).drop ((List.replicate 20 0 : List Nat).length - 20)
      ++ List.replicate 65516 0).drop 20 = _
    exact drop_append_len _ _ hhid
  have hfragd : (ip_fragment_out (NetIf.mk [10, 0, 0, 1] [1, 2, 3, 4, 5, 6])
      (Buf.mk (List.replicate 20 0) (List.replicate 65516 0) []) [10, 0, 0, 2] 17 0 0 false).data =
      ip_hdr_bytes (NetIf.mk [10, 0, 0, 1] [1, 2, 3, 4, 5, 6]) [10, 0, 0, 2] 17 0 0 false 65536
        (checksum16 (ip_hdr_bytes (NetIf.mk [10, 0, 0, 1] [1, 2, 3, 4, 5, 6]) [10, 0, 0, 2]
          17 0 0 false 65536 0))
        ++ List.replicate 65516 0 := by
    show ip_hdr_bytes _ _ 17 0 0 false
        (buf_add_header (Buf.mk (List.replicate 20 0) (List.replicate 65516 0) []) 20).data.length
        (checksum16 (ip_hdr_bytes _ _ 17 0 0 false
          (buf_add_header (Buf.mk (List.replicate 20 0) (List.replicate 65516 0) []) 20).data.length 0))
        ++ (buf_add_header (Buf.mk (List.replicate 20 0) (List.replicate 65516 0) []) 20).data.drop 20 = _
    rw [hlenb1, hdropb1]
  set ckw := checksum16 (ip_hdr_bytes (NetIf.mk [10, 0, 0, 1] [1, 2, 3, 4, 5, 6]) [10, 0, 0, 2]
    17 0 0 false 65536 0) with hckw
  have hD : (ip_fragment_out (NetIf.mk [10, 0, 0, 1] [1, 2, 3, 4, 5, 6])
      (Buf.mk (List.replicate 20 0) (List.replicate 65516 0) []) [10, 0, 0, 2] 17 0 0 false).data =
      [69, 0, 0, 0, 0, 0, 0, 0, 64, 17, ckw % 256, ckw / 256 % 256, 10, 0, 0, 1, 10, 0, 0, 2]
        ++ List.replicate 65516 0 := by
    rw [hfragd]
    rfl
  have hDlen : (ip_fragment_out (NetIf.mk [10, 0, 0, 1] [1, 2, 3, 4, 5, 6])
      (Buf.mk (List.replicate 20 0) (List.replicate 65516 0) []) [10, 0, 0, 2] 17 0 0 false).data.length
      = 65536 := by
    rw [hD, List.length_append, List.length_replicate]
    norm_num
  have hget0 : (ip_fragment_out (NetIf.mk [10, 0, 0, 1] [1, 2, 3, 4, 5, 6])
      (Buf.mk (List.replicate 20 0) (List.replicate 65516 0) []) [10, 0, 0, 2] 17 0 0 false).data.getD 0 0
      = 69 := by
    rw [hD]; rfl
  have htotval : readBE16 (ip_fragment_out (NetIf.mk [10, 0, 0, 1] [1, 2, 3, 4, 5, 6])
      (Buf.mk (List.replicate 20 0) (List.replicate 65516 0) []) [10, 0, 0, 2] 17 0 0 false).data 2
      = 0 := by
    rw [hD]; rfl
  have hlen20 : ¬ (ip_fragment_out (NetIf.mk [10, 0, 0, 1] [1, 2, 3, 4, 5, 6])
      (Buf.mk (List.replicate 20 0) (List.replicate 65516 0) []) [10, 0, 0, 2] 17 0 0 false).data.length
      < 20 := by omega
  have hv : ¬ ((ip_fragment_out (NetIf.mk [10, 0, 0, 1] [1, 2, 3, 4, 5, 6])
      (Buf.mk (List.replicate 20 0) (List.replicate 65516 0) []) [10, 0, 0, 2] 17 0 0 false).data.getD 0 0
      / 16 ≠ 4) := by
    rw [hget0]; norm_num
  have hhl5 : ¬ ((ip_fragment_out (NetIf.mk [10, 0, 0, 1] [1, 2, 3, 4, 5, 6])
      (Buf.mk (List.replicate 20 0) (List.replicate 65516 0) []) [10, 0, 0, 2] 17 0 0 false).data.getD 0 0
      % 16 < 5 ∨
      15 < (ip_fragment_out (NetIf.mk [10, 0, 0, 1] [1, 2, 3, 4, 5, 6])
      (Buf.mk (List.replicate 20 0) (List.replicate 65516 0) []) [10, 0, 0, 2] 17 0 0 false).data.getD 0 0
      % 16) := by
    rw [hget0]; norm_num
  have htotal : ((ip_fragment_out (NetIf.mk [10, 0, 0, 1] [1, 2, 3, 4, 5, 6])
      (Buf.mk (List.replicate 20 0) (List.replicate 65516 0) []) [10, 0, 0, 2] 17 0 0 false).data.length <
      readBE16 (ip_fragment_out (NetIf.mk [10, 0, 0, 1] [1, 2, 3, 4, 5, 6])
        (Buf.mk (List.replicate 20 0) (List.replicate 65516 0) []) [10, 0, 0, 2] 17 0 0 false).data 2 ∨
      readBE16 (ip_fragment_out (NetIf.mk [10, 0, 0, 1] [1, 2, 3, 4, 5, 6])
        (Buf.mk (List.replicate 20 0) (List.replicate 65516 0) []) [10, 0, 0, 2] 17 0 0 false).data 2 <
      (ip_fragment_out (NetIf.mk [10, 0, 0, 1] [1, 2, 3, 4, 5, 6])
        (Buf.mk (List.replicate 20 0) (List.replicate 65516 0) []) [10, 0, 0, 2] 17 0 0 false).data.getD 0 0
      % 16 * 4) := by
    rw [htotval, hget0, hDlen]
    norm_num
  simp only [ip_in, if_neg hlen20, if_neg hv, if_neg hhl5, if_pos htotal]
  rfl

lemma ip_out_loop_join (payload dst : List Nat) (protocol id : Nat) :
    ∀ fuel sent offset, payload.length ≤ sent + fuel →
    (ip_out_loop fuel payload dst protocol id sent offset).foldr
      (fun f acc => f.chunk ++ acc) [] = payload.drop sent := by
  intro fuel
  induction fuel with
  | zero =>
    intro sent offset h
    rw [ip_out_loop]
    exact (List.drop_eq_nil_of_le (by omega)).symm
  | succ fuel ih =>
    intro sent offset h
    rw [ip_out_loop]
    by_cases hA : sent + IP_MAX_PAYLOAD < payload.length
    · rw [if_pos hA]
      have hT : IP_MAX_PAYLOAD = 1480 := rfl
      rw [List.foldr_cons, ih (sent + IP_MAX_PAYLOAD) _ (by omega)]
      show (payload.drop sent).take IP_MAX_PAYLOAD ++ payload.drop (sent + IP_MAX_PAYLOAD) = _
      rw [← List.drop_drop, List.take_append_drop]
    · rw [if_neg hA]
      by_cases hB : 0 < payload.length - sent
      · rw [if_pos hB]
        simp
      · rw [if_neg hB]
        exact (List.drop_eq_nil_of_le (by omega)).symm

lemma ip_out_loop_length (payload dst : List Nat) (protocol id : Nat) :
    ∀ fuel sent offset, payload.length ≤ sent + fuel →
    (ip_out_loop fuel payload dst protocol id sent offset).length
      = (payload.length - sent + 1479) / 1480 := by
  intro fuel
  induction fuel with
  | zero =>
    intro sent offset h
    rw [ip_out_loop]
    show 0 = (payload.length - sent + 1479) / 1480
    omega
  | succ fuel ih =>
    intro sent offset h
    rw [ip_out_loop]
    have hT : IP_MAX_PAYLOAD = 1480 := rfl
    by_cases hA : sent + IP_MAX_PAYLOAD < payload.length
    · rw [if_pos hA, List.length_cons, ih (sent + IP_MAX_PAYLOAD) _ (by omega)]
      rw [hT] at hA
      omega
    · rw [if_neg hA]
      rw [hT] at hA
      by_cases hB : 0 < payload.length - sent
      · rw [if_pos hB]
        show 1 = (payload.length - sent + 1479) / 1480
        omega
      · rw [if_neg hB]
        show 0 = (payload.length - sent + 1479) / 1480
        omega

lemma ip_out_loop_mem (payload dst : List Nat) (protocol id : Nat) :
    ∀ fuel sent offset f, f ∈ ip_out_loop fuel payload dst protocol id sent offset →
    f.id = id ∧ f.dst = dst ∧ f.protocol = protocol := by
  intro fuel
  induction fuel with
  | zero =>
    intro sent offset f hf
    rw [ip_out_loop] at hf
    simp at hf
  | succ fuel ih =>
    intro sent offset f hf
    rw [ip_out_loop] at hf
    by_cases hA : sent + IP_MAX_PAYLOAD < payload.length
    · rw [if_pos hA] at hf
      rcases List.mem_cons.mp hf with h | h
      · subst h; exact ⟨rfl, rfl, rfl⟩
      · exact ih _ _ f h
    · rw [if_neg hA] at hf
      by_cases hB : 0 < payload.length - sent
      · rw [if_pos hB] at hf
        rcases List.mem_cons.mp hf with h | h
        · subst h; exact ⟨rfl, rfl, rfl⟩
        · simp at h
      · rw [if_neg hB] at hf
        simp at hf

lemma ip_out_loop_mf (payload dst : List Nat) (protocol id : Nat) :
    ∀ fuel sent offset, payload.length ≤ sent + fuel → sent < payload.length →
    (ip_out_loop fuel payload dst protocol id sent offset).map (fun f => f.mf)
      = List.replicate ((ip_out_loop fuel payload dst protocol id sent offset).length - 1) true
        ++ [false] := by
  intro fuel
  induction fuel with
  | zero =>
    intro sent offset h hs
    omega
  | succ fuel ih =>
    intro sent offset h hs
    have hT : IP_MAX_PAYLOAD = 1480 := rfl
    rw [ip_out_loop]
    by_cases hA : sent + IP_MAX_PAYLOAD < payload.length
    · rw [if_pos hA]
      have hrest1 : 1 ≤ (ip_out_loop fuel payload dst protocol id (sent + IP_MAX_PAYLOAD)
          ((offset + IP_MAX_PAYLOAD) % 65536)).length := by
        rw [ip_out_loop_length payload dst protocol id fuel _ _ (by omega)]
        rw [hT] at hA ⊢
        omega
      rw [List.map_cons, ih (sent + IP_MAX_PAYLOAD) _ (by omega) (by omega)]
      rw [List.length_cons]
      rw [show (ip_out_loop fuel payload dst protocol id (sent + IP_MAX_PAYLOAD)
          ((offset + IP_MAX_PAYLOAD) % 65536)).length + 1 - 1
        = ((ip_out_loop fuel payload dst protocol id (sent + IP_MAX_PAYLOAD)
          ((offset + IP_MAX_PAYLOAD) % 65536)).length - 1) + 1 by omega]
      rw [List.replicate_succ]
      rfl
    · rw [if_neg hA, if_pos (by omega)]
      rfl

lemma ip_out_loop_offsets (payload dst : List Nat) (protocol id : Nat) :
    ∀ fuel sent offset, payload.length ≤ sent + fuel → offset < 65536 →
    (ip_out_loop fuel payload dst protocol id sent offset).map (fun f => f.offset)
      = (List.range (ip_out_loop fuel payload dst protocol id sent offset).length).map
          (fun i => (offset + i * 1480) % 65536) := by
  intro fuel
  induction fuel with
  | zero =>
    intro sent offset h hoff
    rw [ip_out_loop]
    rfl
  | succ fuel ih =>
    intro sent offset h hoff
    have hT : IP_MAX_PAYLOAD = 1480 := rfl
    rw [ip_out_loop]
    by_cases hA : sent + IP_MAX_PAYLOAD < payload.length
    · rw [if_pos hA]
      rw [List.map_cons, List.length_cons, List.range_succ_eq_map, List.map_cons,
        List.map_map]
      have hmod : (offset + IP_MAX_PAYLOAD) % 65536 < 65536 := Nat.mod_lt _ (by norm_num)
      rw [ih (sent + IP_MAX_PAYLOAD) _ (by omega) hmod]
      refine congrArg₂ List.cons ?_ ?_
      · show offset = (offset + 0 * 1480) % 65536
        simp [Nat.mod_eq_of_lt hoff]
      · refine List.map_congr_left ?_
        intro i _
        show ((offset + IP_MAX_PAYLOAD) % 65536 + i * 1480) % 65536
          = (offset + Nat.succ i * 1480) % 65536
        rw [Nat.mod_add_mod]
        congr 1
        omega
    · rw [if_neg hA]
      by_cases hB : 0 < payload.length - sent
      · rw [if_pos hB]
        show [offset] = [(offset + 0 * 1480) % 65536]
        simp [Nat.mod_eq_of_lt hoff]
      · rw [if_neg hB]
        rfl

/-- C1 (amended): a single `ip_out` call on a payload of length `L` with
`IP_MAX_PAYLOAD (= 1480 = T) < L ≤ 45·T = 66600` — the bound under which
every byte offset fits the 16-bit fragment-offset variable — issues exactly
`⌈L/T⌉` calls to `ip_fragment_out`, all carrying the same freshly allocated
datagram id (the counter advances by exactly one); every fragment except
the last has MoreFragments set and the last has it clear; the byte offsets
are `0, T, 2T, …` (strictly increasing multiples of 8); and the fragment
payloads concatenated in emission (= offset) order reproduce the original
payload.  (Beyond `45·T` the `uint16_t` offset variable wraps modulo
2^16, which is why the claim's unrestricted length quantifier needed
amending.) -/
theorem ip_out_fragmentation (buf : Buf) (dst : List Nat) (protocol ip_id : Nat)
    (hL : 1480 < buf.data.length) (hB : buf.data.length ≤ 66600) :
    (ip_out buf dst protocol ip_id).1.length = (buf.data.length + 1479) / 1480 ∧
    (ip_out buf dst protocol ip_id).2 = (ip_id + 1) % 65536 ∧
    (∀ f ∈ (ip_out buf dst protocol ip_id).1,
      f.id = ip_id % 65536 ∧ f.dst = dst ∧ f.protocol = protocol) ∧
    (ip_out buf dst protocol ip_id).1.map (fun f => f.mf)
      = List.replicate ((ip_out buf dst protocol ip_id).1.length - 1) true ++ [false] ∧
    (ip_out buf dst protocol ip_id).1.map (fun f => f.offset)
      = (List.range (ip_out buf dst protocol ip_id).1.length).map (fun i => i * 1480) ∧
    (∀ f ∈ (ip_out buf dst protocol ip_id).1, f.offset % 8 = 0) ∧
    (ip_out buf dst protocol ip_id).1.foldr (fun f acc => f.chunk ++ acc) [] = buf.data := by
  have hT : IP_MAX_PAYLOAD = 1480 := rfl
  have hcond : IP_MAX_PAYLOAD < buf.data.length := by rw [hT]; exact hL
  have hfst : (ip_out buf dst protocol ip_id).1 =
      ip_out_loop (buf.data.length + 1) buf.data dst protocol (ip_id % 65536) 0 0 := by
    rw [ip_out, if_pos hcond]
  have hsnd : (ip_out buf dst protocol ip_id).2 = (ip_id + 1) % 65536 := by
    rw [ip_out, if_pos hcond]
  have hfuel : buf.data.length ≤ 0 + (buf.data.length + 1) := by omega
  have hlen := ip_out_loop_length buf.data dst protocol (ip_id % 65536)
    (buf.data.length + 1) 0 0 hfuel
  have hoff := ip_out_loop_offsets buf.data dst protocol (ip_id % 65536)
    (buf.data.length + 1) 0 0 hfuel (by norm_num)
  refine ⟨?_, hsnd, ?_, ?_, ?_, ?_, ?_⟩
  · rw [hfst, hlen]
    omega
  · intro f hf
    rw [hfst] at hf
    exact ip_out_loop_mem buf.data dst protocol (ip_id % 65536) _ _ _ f hf
  · rw [hfst]
    exact ip_out_loop_mf buf.data dst protocol (ip_id % 65536) _ 0 0 hfuel (by omega)
  · rw [hfst, hoff]
    refine List.map_congr_left ?_
    intro i hi
    have hi' : i < (ip_out_loop (buf.data.length + 1) buf.data dst protocol
        (ip_id % 65536) 0 0).length := List.mem_range.mp hi
    rw [hlen] at hi'
    have hsmall : i * 1480 < 65536 := by omega
    show (0 + i * 1480) % 65536 = i * 1480
    rw [Nat.zero_add]
    exact Nat.mod_eq_of_lt hsmall
  · intro f hf
    rw [hfst] at hf
    have hmem : f.offset ∈ (ip_out_loop (buf.data.length + 1) buf.data dst protocol
        (ip_id % 65536) 0 0).map (fun f => f.offset) :=
      List.mem_map_of_mem _ hf
    rw [hoff] at hmem
    obtain ⟨i, _, hoffeq⟩ := List.mem_map.mp hmem
    rw [← hoffeq]
    show ((0 + i * 1480) % 65536) % 8 = 0
    rw [Nat.mod_mod_of_dvd _ (by norm_num : (8 : Nat) ∣ 65536)]
    omega
  · rw [hfst, ip_out_loop_join buf.data dst protocol (ip_id % 65536)
      (buf.data.length + 1) 0 0 hfuel]
    exact List.drop_zero buf.data

/-- Witness for C1 (amended) at a concrete 1481-byte payload (two
fragments). -/
theorem ip_out_fragmentation_witness :
    (1480 < (Buf.mk [] (List.replicate 1481 0) []).data.length ∧
      (Buf.mk [] (List.replicate 1481 0) []).data.length ≤ 66600) ∧
    ((ip_out (Buf.mk [] (List.replicate 1481 0) []) [10, 0, 0, 9] 17 3).1.length =
        ((Buf.mk [] (List.replicate 1481 0) []).data.length + 1479) / 1480 ∧
      (ip_out (Buf.mk [] (List.replicate 1481 0) []) [10, 0, 0, 9] 17 3).2 = (3 + 1) % 65536 ∧
      (∀ f ∈ (ip_out (Buf.mk [] (List.replicate 1481 0) []) [10, 0, 0, 9] 17 3).1,
        f.id = 3 % 65536 ∧ f.dst = [10, 0, 0, 9] ∧ f.protocol = 17) ∧
      (ip_out (Buf.mk [] (List.replicate 1481 0) []) [10, 0, 0, 9] 17 3).1.map (fun f => f.mf)
        = List.replicate
            ((ip_out (Buf.mk [] (List.replicate 1481 0) []) [10, 0, 0, 9] 17 3).1.length - 1)
            true ++ [false] ∧
      (ip_out (Buf.mk [] (List.replicate 1481 0) []) [10, 0, 0, 9] 17 3).1.map (fun f => f.offset)
        = (List.range
            (ip_out (Buf.mk [] (List.replicate 1481 0) []) [10, 0, 0, 9] 17 3).1.length).map
            (fun i => i * 1480) ∧
      (∀ f ∈ (ip_out (Buf.mk [] (List.replicate 1481 0) []) [10, 0, 0, 9] 17 3).1,
        f.offset % 8 = 0) ∧
      (ip_out (Buf.mk [] (List.replicate 1481 0) []) [10, 0, 0, 9] 17 3).1.foldr
        (fun f acc => f.chunk ++ acc) [] = (Buf.mk [] (List.replicate 1481 0) []).data) :=
  ⟨⟨by rw [show (Buf.mk [] (List.replicate 1481 0) []).data.length = 1481 from
        List.length_replicate 1481 0]; norm_num,
      by rw [show (Buf.mk [] (List.replicate 1481 0) []).data.length = 1481 from
        List.length_replicate 1481 0]; norm_num⟩,
    ip_out_fragmentation (Buf.mk [] (List.replicate 1481 0) []) [10, 0, 0, 9] 17 3
      (by rw [show (Buf.mk [] (List.replicate 1481 0) []).data.length = 1481 from
        List.length_replicate 1481 0]; norm_num)
      (by rw [show (Buf.mk [] (List.replicate 1481 0) []).data.length = 1481 from
        List.length_replicate 1481 0]; norm_num)⟩

/-- Counterexample to C1 as stated: on a 66601-byte payload `ip_out` emits
46 fragments, but the 16-bit fragment-offset variable wraps: the 45th
fragment (index 44) carries byte offset 65120 while the last fragment
(index 45) carries byte offset 1064 = 45·1480 mod 2^16 — the offsets are
neither strictly increasing nor equal to 0, T, 2T, …. -/
theorem ip_out_offset_wrap_cex :
    (ip_out (Buf.mk [] (List.replicate 66601 0) []) [10, 0, 0, 9] 17 0).1.length = 46 ∧
    ((ip_out (Buf.mk [] (List.replicate 66601 0) []) [10, 0, 0, 9] 17 0).1.map
      (fun f => f.offset)).getD 44 0 = 65120 ∧
    ((ip_out (Buf.mk [] (List.replicate 66601 0) []) [10, 0, 0, 9] 17 0).1.map
      (fun f => f.offset)).getD 45 0 = 1064 := by
  have hL : (Buf.mk [] (List.replicate 66601 0) []).data.length = 66601 :=
    List.length_replicate 66601 0
  have hcond : IP_MAX_PAYLOAD < (Buf.mk [] (List.replicate 66601 0) []).data.length := by
    rw [hL]
    norm_num [IP_MAX_PAYLOAD]
  have hfst : (ip_out (Buf.mk [] (List.replicate 66601 0) []) [10, 0, 0, 9] 17 0).1 =
      ip_out_loop ((Buf.mk [] (List.replicate 66601 0) []).data.length + 1)
        (Buf.mk [] (List.replicate 66601 0) []).data [10, 0, 0, 9] 17 (0 % 65536) 0 0 := by
    rw [ip_out, if_pos hcond]
  have hfuel : (Buf.mk [] (List.replicate 66601 0) []).data.length ≤
      0 + ((Buf.mk [] (List.replicate 66601 0) []).data.length + 1) := by omega
  have hlen2 : (ip_out_loop ((Buf.mk [] (List.replicate 66601 0) []).data.length + 1)
      (Buf.mk [] (List.replicate 66601 0) []).data [10, 0, 0, 9] 17 (0 % 65536) 0 0).length
      = 46 := by
    rw [ip_out_loop_length (Buf.mk [] (List.replicate 66601 0) []).data [10, 0, 0, 9]
      17 (0 % 65536) ((Buf.mk [] (List.replicate 66601 0) []).data.length + 1) 0 0 hfuel, hL]
  have hoff := ip_out_loop_offsets (Buf.mk [] (List.replicate 66601 0) []).data [10, 0, 0, 9]
    17 (0 % 65536) ((Buf.mk [] (List.replicate 66601 0) []).data.length + 1) 0 0 hfuel
    (by norm_num)
  rw [hlen2] at hoff
  refine ⟨?_, ?_, ?_⟩
  · rw [hfst, hlen2]
  · rw [hfst, hoff]
    decide
  · rw [hfst, hoff]
    decide

/-- C10: `udp_in` imposes no lower bound on the declared UDP total length:
a segment whose window holds at least the 8 header bytes but whose declared
total length is smaller than 8 (even 0) is not dropped by the length
checks; the window is trimmed down to the declared total length — below
the UDP header size — and the checksum-verification-and-dispatch phase
(`udp_in_checked`) proceeds on that trimmed buffer. -/
theorem udp_in_no_min_declared_len (cfg : NetIf) (tbl : List (Nat × Nat)) (buf : Buf)
    (src_ip : List Nat) (h8 : 8 ≤ buf.data.length) (hlt : readBE16 buf.data 4 < 8) :
    udp_in cfg tbl buf src_ip =
      udp_in_checked cfg tbl
        (buf_remove_padding buf (buf.data.length - readBE16 buf.data 4)) src_ip ∧
    (buf_remove_padding buf (buf.data.length - readBE16 buf.data 4)).data.length
      = readBE16 buf.data 4 := by
  constructor
  · rw [udp_in, if_neg (by omega), if_neg (by omega)]
  · show (buf.data.take (buf.data.length - (buf.data.length - readBE16 buf.data 4))).length = _
    rw [List.length_take]
    omega

/-- Witness for C10: an 8-byte segment declaring total length 3. -/
theorem udp_in_no_min_declared_len_witness :
    (8 ≤ (Buf.mk [] [0, 7, 0, 9, 0, 3, 0, 0] []).data.length ∧
      readBE16 (Buf.mk [] [0, 7, 0, 9, 0, 3, 0, 0] []).data 4 < 8) ∧
    (udp_in (NetIf.mk [10, 0, 0, 1] [1, 2, 3, 4, 5, 6]) []
        (Buf.mk [] [0, 7, 0, 9, 0, 3, 0, 0] []) [10, 0, 0, 2] =
      udp_in_checked (NetIf.mk [10, 0, 0, 1] [1, 2, 3, 4, 5, 6]) []
        (buf_remove_padding (Buf.mk [] [0, 7, 0, 9, 0, 3, 0, 0] [])
          ((Buf.mk [] [0, 7, 0, 9, 0, 3, 0, 0] []).data.length -
            readBE16 (Buf.mk [] [0, 7, 0, 9, 0, 3, 0, 0] []).data 4)) [10, 0, 0, 2] ∧
      (buf_remove_padding (Buf.mk [] [0, 7, 0, 9, 0, 3, 0, 0] [])
        ((Buf.mk [] [0, 7, 0, 9, 0, 3, 0, 0] []).data.length -
          readBE16 (Buf.mk [] [0, 7, 0, 9, 0, 3, 0, 0] []).data 4)).data.length
        = readBE16 (Buf.mk [] [0, 7, 0, 9, 0, 3, 0, 0] []).data 4) :=
  ⟨⟨by decide, by decide⟩,
    udp_in_no_min_declared_len (NetIf.mk [10, 0, 0, 1] [1, 2, 3, 4, 5, 6]) []
      (Buf.mk [] [0, 7, 0, 9, 0, 3, 0, 0] []) [10, 0, 0, 2] (by decide) (by decide)⟩

lemma icmp_unreachable_hdr20 (b : Buf) (origHdr rest src_ip : List Nat) (code : Nat)
    (hb : b.data = origHdr ++ rest) (h20 : origHdr.length = 20)
    (h5 : origHdr.getD 0 0 % 16 = 5) (h8 : 8 ≤ rest.length) :
    icmp_unreachable b src_ip code =
      ⟨3 :: code % 256 :: le16 (checksum16 (3 :: code % 256 :: 0 :: 0 :: 0 :: 0 :: 0 :: 0 ::
          (origHdr ++ rest.take 8))) ++ (0 :: 0 :: 0 :: 0 :: (origHdr ++ rest.take 8)),
        src_ip, NET_PROTOCOL_ICMP⟩ := by
  have hpos : 0 < origHdr.length := by omega
  have hget : (origHdr ++ rest).getD 0 0 % 16 * 4 = 20 := by
    rw [List.getD_append _ _ _ _ hpos, h5]
  have hlen : (origHdr ++ rest).length - 20 = rest.length := by
    rw [List.length_append, h20]
    omega
  have hmin : min 8 rest.length = 8 := Nat.min_eq_left h8
  have htake : (origHdr ++ rest).take 20 = origHdr := take_append_len _ _ h20
  have hdrop : (origHdr ++ rest).drop 20 = rest := drop_append_len _ _ h20
  rw [icmp_unreachable, hb]
  simp only [hget, hlen, hmin, htake, hdrop, Nat.sub_self, List.replicate_zero,
    List.append_nil, List.append_assoc]

/-- C6 (amended): a received UDP datagram that passes `udp_in`'s length
checks and checksum verification, whose stripped IP header is the minimum
20 bytes (header-length nibble 5, no options) and whose declared UDP
length is at least the 8-byte header, and whose destination port has no
registered handler, causes exactly one ICMP destination-unreachable —
type 3, code 3 (port unreachable), id 0, seq 0 — to be handed to `ip_out`
toward the datagram's source IP, its data section being exactly the
original IP header followed by the first 8 bytes of the original UDP
segment.  (With IP options the code re-attaches only 20 bytes and the
ICMP data is not the original header; with a declared length under 8 the
trimmed segment is zero-padded — which is why the claim needed these two
hypotheses.)  The buffer's headroom `H ++ origHdr` records that `ip_in`
stripped exactly `origHdr` before dispatching to `udp_in`. -/
theorem udp_in_port_unreachable (cfg : NetIf) (tbl : List (Nat × Nat))
    (H origHdr seg tail src_ip : List Nat)
    (h20 : origHdr.length = 20) (h5 : origHdr.getD 0 0 % 16 = 5)
    (h8 : 8 ≤ seg.length)
    (htot8 : 8 ≤ readBE16 seg 4) (htotle : readBE16 seg 4 ≤ seg.length)
    (hck : (transport_checksum NET_PROTOCOL_UDP
        (Buf.mk (H ++ origHdr) ((zero_udp_ck seg).take (readBE16 seg 4))
          (seg.drop (readBE16 seg 4) ++ tail)) src_ip cfg.ip).1 = readLE16 seg 6)
    (hport : map_get tbl (readBE16 seg 2) = none) :
    udp_in cfg tbl (Buf.mk (H ++ origHdr) seg tail) src_ip =
      .portUnreachable
        ⟨3 :: 3 :: le16 (checksum16 (3 :: 3 :: 0 :: 0 :: 0 :: 0 :: 0 :: 0 ::
            (origHdr ++ seg.take 8))) ++ (0 :: 0 :: 0 :: 0 :: (origHdr ++ seg.take 8)),
          src_ip, NET_PROTOCOL_ICMP⟩
        (Buf.mk H (origHdr ++ seg.take (readBE16 seg 4))
          (seg.drop (readBE16 seg 4) ++ tail)) := by
  have h1 : udp_in cfg tbl (Buf.mk (H ++ origHdr) seg tail) src_ip =
      udp_in_checked cfg tbl
        (buf_remove_padding (Buf.mk (H ++ origHdr) seg tail)
          (seg.length - readBE16 seg 4)) src_ip := by
    rw [udp_in]
    rw [if_neg (show ¬ (Buf.mk (H ++ origHdr) seg tail).data.length < 8 from by
      show ¬ seg.length < 8; omega)]
    rw [if_neg (show ¬ (Buf.mk (H ++ origHdr) seg tail).data.length <
        readBE16 (Buf.mk (H ++ origHdr) seg tail).data 4 from by
      show ¬ seg.length < readBE16 seg 4; omega)]
  have ht : seg.length - (seg.length - readBE16 seg 4) = readBE16 seg 4 := by omega
  have td : (buf_remove_padding (Buf.mk (H ++ origHdr) seg tail)
      (seg.length - readBE16 seg 4)).data = seg.take (readBE16 seg 4) := by
    show seg.take (seg.length - (seg.length - readBE16 seg 4)) = _
    rw [ht]
  have ttl : (buf_remove_padding (Buf.mk (H ++ origHdr) seg tail)
      (seg.length - readBE16 seg 4)).tail = seg.drop (readBE16 seg 4) ++ tail := by
    show seg.drop (seg.length - (seg.length - readBE16 seg 4)) ++ tail = _
    rw [ht]
  have hmem : (buf_remove_padding (Buf.mk (H ++ origHdr) seg tail)
        (seg.length - readBE16 seg 4)).data ++
      (buf_remove_padding (Buf.mk (H ++ origHdr) seg tail)
        (seg.length - readBE16 seg 4)).tail = seg ++ tail := by
    rw [td, ttl, ← List.append_assoc, List.take_append_drop]
  have htdlen : (buf_remove_padding (Buf.mk (H ++ origHdr) seg tail)
      (seg.length - readBE16 seg 4)).data.length = readBE16 seg 4 := by
    rw [td, List.length_take]
    omega
  have horig : readLE16 (seg ++ tail) 6 = readLE16 seg 6 := by
    unfold readLE16
    rw [List.getD_append _ _ _ _ (by omega), List.getD_append _ _ _ _ (by omega)]
  have hport' : readBE16 (seg ++ tail) 2 = readBE16 seg 2 := by
    unfold readBE16
    rw [List.getD_append _ _ _ _ (by omega), List.getD_append _ _ _ _ (by omega)]
  have hz : (zero_udp_ck (seg ++ tail)).take (readBE16 seg 4)
      = (zero_udp_ck seg).take (readBE16 seg 4) := by
    unfold zero_udp_ck
    rw [List.take_append_of_le_length (by omega : 6 ≤ seg.length),
      List.drop_append_of_le_length (by omega : 8 ≤ seg.length)]
    rw [List.take_append_eq_append_take, List.take_append_eq_append_take]
    congr 1
    have hl6 : (seg.take 6).length = 6 := length_take_of_le (by omega)
    rw [hl6]
    have h2 : readBE16 seg 4 - 6 = (readBE16 seg 4 - 8) + 1 + 1 := by omega
    rw [h2, List.take_succ_cons, List.take_succ_cons]
    congr 2
    exact List.take_append_of_le_length (by rw [List.length_drop]; omega)
  have htrim : buf_remove_padding (Buf.mk (H ++ origHdr) seg tail)
      (seg.length - readBE16 seg 4)
      = Buf.mk (H ++ origHdr) (seg.take (readBE16 seg 4))
          (seg.drop (readBE16 seg 4) ++ tail) :=
    Buf.ext rfl td ttl
  have hmem2 : seg.take (readBE16 seg 4) ++ (seg.drop (readBE16 seg 4) ++ tail)
      = seg ++ tail := by
    rw [← List.append_assoc, List.take_append_drop]
  have htdlen2 : (seg.take (readBE16 seg 4)).length = readBE16 seg 4 := by
    rw [List.length_take]
    omega
  have hb2 : buf_add_header (Buf.mk (H ++ origHdr) (seg.take (readBE16 seg 4))
      (seg.drop (readBE16 seg 4) ++ tail)) 20
      = Buf.mk H (origHdr ++ seg.take (readBE16 seg 4))
          (seg.drop (readBE16 seg 4) ++ tail) := by
    refine Buf.ext ?_ ?_ rfl
    · show (H ++ origHdr).take ((H ++ origHdr).length - 20) = H
      rw [List.length_append, h20, Nat.add_sub_cancel, List.take_left]
    · show (H ++ origHdr).drop ((H ++ origHdr).length - 20) ++ seg.take (readBE16 seg 4) = _
      rw [List.length_append, h20, Nat.add_sub_cancel, List.drop_left]
  have hicmp := icmp_unreachable_hdr20
    (Buf.mk H (origHdr ++ seg.take (readBE16 seg 4)) (seg.drop (readBE16 seg 4) ++ tail))
    origHdr (seg.take (readBE16 seg 4)) src_ip 3 rfl h20 h5
    (by rw [List.length_take]; omega)
  have htt : (seg.take (readBE16 seg 4)).take 8 = seg.take 8 := by
    rw [List.take_take, Nat.min_eq_left htot8]
  rw [htt] at hicmp
  rw [h1, htrim, udp_in_checked]
  simp only [hmem2, htdlen2, horig, hport', hz]
  rw [if_neg (show ¬ ((transport_checksum NET_PROTOCOL_UDP
      (Buf.mk (H ++ origHdr) ((zero_udp_ck seg).take (readBE16 seg 4))
        (seg.drop (readBE16 seg 4) ++ tail)) src_ip cfg.ip).1 ≠ readLE16 seg 6) from
    fun hne => hne hck)]
  rw [hport]
  rw [hb2, hicmp]

/-- Witness for C6 (amended): a 12-byte UDP segment with a valid checksum
to unregistered port 9, behind a stripped 20-byte IP header. -/
theorem udp_in_port_unreachable_witness :
    (([69, 0, 0, 28, 0, 0, 0, 0, 64, 17, 0, 0, 10, 0, 0, 2, 10, 0, 0, 1] : List Nat).length = 20 ∧
      ([69, 0, 0, 28, 0, 0, 0, 0, 64, 17, 0, 0, 10, 0, 0, 2, 10, 0, 0, 1] : List Nat).getD 0 0 % 16 = 5 ∧
      8 ≤ ([19, 136, 0, 9, 0, 12, 212, 60, 1, 2, 3, 4] : List Nat).length ∧
      8 ≤ readBE16 [19, 136, 0, 9, 0, 12, 212, 60, 1, 2, 3, 4] 4 ∧
      readBE16 [19, 136, 0, 9, 0, 12, 212, 60, 1, 2, 3, 4] 4 ≤
        ([19, 136, 0, 9, 0, 12, 212, 60, 1, 2, 3, 4] : List Nat).length ∧
      (transport_checksum NET_PROTOCOL_UDP
        (Buf.mk ([7, 7] ++ [69, 0, 0, 28, 0, 0, 0, 0, 64, 17, 0, 0, 10, 0, 0, 2, 10, 0, 0, 1])
          ((zero_udp_ck [19, 136, 0, 9, 0, 12, 212, 60, 1, 2, 3, 4]).take
            (readBE16 [19, 136, 0, 9, 0, 12, 212, 60, 1, 2, 3, 4] 4))
          (([19, 136, 0, 9, 0, 12, 212, 60, 1, 2, 3, 4] : List Nat).drop
            (readBE16 [19, 136, 0, 9, 0, 12, 212, 60, 1, 2, 3, 4] 4) ++ []))
        [10, 0, 0, 2] (NetIf.mk [10, 0, 0, 1] [1, 2, 3, 4, 5, 6]).ip).1 =
        readLE16 [19, 136, 0, 9, 0, 12, 212, 60, 1, 2, 3, 4] 6 ∧
      map_get ([] : List (Nat × Nat)) (readBE16 [19, 136, 0, 9, 0, 12, 212, 60, 1, 2, 3, 4] 2)
        = none) ∧
    udp_in (NetIf.mk [10, 0, 0, 1] [1, 2, 3, 4, 5, 6]) []
        (Buf.mk ([7, 7] ++ [69, 0, 0, 28, 0, 0, 0, 0, 64, 17, 0, 0, 10, 0, 0, 2, 10, 0, 0, 1])
          [19, 136, 0, 9, 0, 12, 212, 60, 1, 2, 3, 4] []) [10, 0, 0, 2] =
      .portUnreachable
        ⟨3 :: 3 :: le16 (checksum16 (3 :: 3 :: 0 :: 0 :: 0 :: 0 :: 0 :: 0 ::
            ([69, 0, 0, 28, 0, 0, 0, 0, 64, 17, 0, 0, 10, 0, 0, 2, 10, 0, 0, 1] ++
              ([19, 136, 0, 9, 0, 12, 212, 60, 1, 2, 3, 4] : List Nat).take 8)))
          ++ (0 :: 0 :: 0 :: 0 ::
            ([69, 0, 0, 28, 0, 0, 0, 0, 64, 17, 0, 0, 10, 0, 0, 2, 10, 0, 0, 1] ++
              ([19, 136, 0, 9, 0, 12, 212, 60, 1, 2, 3, 4] : List Nat).take 8)),
          [10, 0, 0, 2], NET_PROTOCOL_ICMP⟩
        (Buf.mk [7, 7]
          ([69, 0, 0, 28, 0, 0, 0, 0, 64, 17, 0, 0, 10, 0, 0, 2, 10, 0, 0, 1] ++
            ([19, 136, 0, 9, 0, 12, 212, 60, 1, 2, 3, 4] : List Nat).take
              (readBE16 [19, 136, 0, 9, 0, 12, 212, 60, 1, 2, 3, 4] 4))
          (([19, 136, 0, 9, 0, 12, 212, 60, 1, 2, 3, 4] : List Nat).drop
            (readBE16 [19, 136, 0, 9, 0, 12, 212, 60, 1, 2, 3, 4] 4) ++ [])) :=
  ⟨⟨by decide, by decide, by decide, by decide, by decide, by decide, by decide⟩,
    udp_in_port_unreachable (NetIf.mk [10, 0, 0, 1] [1, 2, 3, 4, 5, 6]) [] [7, 7]
      [69, 0, 0, 28, 0, 0, 0, 0, 64, 17, 0, 0, 10, 0, 0, 2, 10, 0, 0, 1]
      [19, 136, 0, 9, 0, 12, 212, 60, 1, 2, 3, 4] [] [10, 0, 0, 2]
      (by decide) (by decide) (by decide) (by decide) (by decide) (by decide) (by decide)⟩

/-- Counterexample to C6 as stated: the same valid no-handler UDP datagram
behind a stripped 24-byte IP header (header-length nibble 6 — IP options
present).  `udp_in` re-attaches only 20 bytes, so the ICMP data section is
the last 20 bytes of the original header followed by 8 segment bytes —
not "the original IP header (its declared header length) followed by the
first 8 bytes of the original UDP segment" that the claim asserts. -/
theorem udp_in_port_unreachable_options_cex :
    udp_in (NetIf.mk [10, 0, 0, 1] [1, 2, 3, 4, 5, 6]) []
        (Buf.mk [70, 0, 0, 32, 69, 0, 0, 0, 64, 17, 0, 0, 10, 0, 0, 2, 10, 0, 0, 1, 1, 1, 1, 1]
          [19, 136, 0, 9, 0, 12, 212, 60, 1, 2, 3, 4] []) [10, 0, 0, 2] =
      .portUnreachable
        ⟨[3, 3, 122, 12, 0, 0, 0, 0, 69, 0, 0, 0, 64, 17, 0, 0, 10, 0, 0, 2, 10, 0, 0, 1,
            1, 1, 1, 1, 19, 136, 0, 9, 0, 12, 212, 60],
          [10, 0, 0, 2], NET_PROTOCOL_ICMP⟩
        (Buf.mk [70, 0, 0, 32]
          [69, 0, 0, 0, 64, 17, 0, 0, 10, 0, 0, 2, 10, 0, 0, 1, 1, 1, 1, 1,
            19, 136, 0, 9, 0, 12, 212, 60, 1, 2, 3, 4] []) ∧
    ([3, 3, 122, 12, 0, 0, 0, 0, 69, 0, 0, 0, 64, 17, 0, 0, 10, 0, 0, 2, 10, 0, 0, 1,
        1, 1, 1, 1, 19, 136, 0, 9, 0, 12, 212, 60] : List Nat).drop 8 ≠
      [70, 0, 0, 32, 69, 0, 0, 0, 64, 17, 0, 0, 10, 0, 0, 2, 10, 0, 0, 1, 1, 1, 1, 1] ++
        ([19, 136, 0, 9, 0, 12, 212, 60, 1, 2, 3, 4] : List Nat).take 8 := by
  decide

end NetLab
